import Mathlib

/-!
Shallow embedding of the llama.cpp JNI wrapper in
src/android/app/src/main/cpp/native-lib.cpp.

The external inference engine (llama.cpp) is modelled by oracles collected
in the Engine structure: tokenizer, decode success, sampler output stream,
detokenizer, sentinel token ids and the optional chat template. The code of
the wrapper itself (batch construction, prompt ingestion, the generation
loop, stop detection, conversation bookkeeping, load rollback, reset) is
translated directly from the C++ source.
-/

namespace NativeLib

/-- llama_token is a 32 bit integer id; positions fit in Nat here. -/
abbrev Token := Int

/-- Model of the reusable llama_batch: fixed arrays indexed by Nat with a
running counter n_tokens, exactly as the C struct is used by the wrapper. -/
structure LlamaBatch where
  n_tokens : Nat
  token : Nat → Token
  pos : Nat → Nat
  n_seq_id : Nat → Nat
  seq_id : Nat → Nat
  logits : Nat → Bool

/-- The batch produced by llama_batch_init in load_model_with_gpu. -/
def init_batch : LlamaBatch :=
  { n_tokens := 0, token := fun _ => 0, pos := fun _ => 0,
    n_seq_id := fun _ => 0, seq_id := fun _ => 0, logits := fun _ => false }

/-- clear_batch: reset the counter, keep the (stale) array contents. -/
def clear_batch (b : LlamaBatch) : LlamaBatch :=
  { b with n_tokens := 0 }

/-- The part of the batch that llama_decode reads: the first n_tokens
entries (token, position, wants-logits). -/
def batchView (b : LlamaBatch) : List (Token × Nat × Bool) :=
  (List.range b.n_tokens).map (fun i => (b.token i, b.pos i, b.logits i))

/-- add_token_to_batch from the source: refuse when 512 entries are already
present, otherwise write token, position, sequence bookkeeping and the
logits flag at index n_tokens and bump the counter.  The seq_ids vector is
resized (zero padded) when too short and entry idx is set to 0. -/
def add_token_to_batch (b : LlamaBatch) (tok : Token) (p : Nat)
    (sids : List Nat) (get_logits : Bool) : Option (LlamaBatch × List Nat) :=
  if 512 ≤ b.n_tokens then none
  else
    let idx := b.n_tokens
    let sids1 := if sids.length ≤ idx then
        sids ++ List.replicate (idx + 1 - sids.length) 0 else sids
    let sids2 := sids1.set idx 0
    some ({ n_tokens := idx + 1,
            token := fun j => if j = idx then tok else b.token j,
            pos := fun j => if j = idx then p else b.pos j,
            n_seq_id := fun j => if j = idx then 1 else b.n_seq_id j,
            seq_id := fun j => if j = idx then 0 else b.seq_id j,
            logits := fun j => if j = idx then get_logits else b.logits j },
          sids2)

/-- The for loop of process_tokens_in_batches: add every token, position
start_pos + i, logits only for the last one.  The Bool reports whether all
adds succeeded (the C++ code returns -1 as soon as one fails). -/
def add_tokens_loop (b : LlamaBatch) (sids : List Nat) :
    List Token → Nat → Nat → Nat → Bool → Bool × LlamaBatch × List Nat
  | [], _, _, _, _ => (true, b, sids)
  | t :: rest, i, total, start_pos, ll =>
    let gl := ll && (i == total - 1)
    match add_token_to_batch b t (start_pos + i) sids gl with
    | none => (false, b, sids)
    | some (b', sids') => add_tokens_loop b' sids' rest (i + 1) total start_pos ll

/-- process_tokens_in_batches: clear the batch, add ALL tokens to the one
batch (no chunking), then submit a single llama_decode call.  Returns the
token count on success and -1 on an add failure or a decode failure. -/
def process_tokens_in_batches (decodeOk : List (Token × Nat × Bool) → Bool)
    (b : LlamaBatch) (tokens : List Token) (sids : List Nat)
    (start_pos : Nat) (ll : Bool) : Int × LlamaBatch × List Nat :=
  let r := add_tokens_loop (clear_batch b) sids tokens 0 tokens.length start_pos ll
  if r.1 then
    if decodeOk (batchView r.2.1) then ((tokens.length : Int), r.2.1, r.2.2)
    else (-1, r.2.1, r.2.2)
  else (-1, r.2.1, r.2.2)

/-! ### Stop pattern detection -/

/-- Earliest start index of pat inside s, the std string find. -/
def find_sub (pat : List Char) : List Char → Option Nat
  | [] => if pat.isPrefixOf ([] : List Char) then some 0 else none
  | c :: rest =>
    if pat.isPrefixOf (c :: rest) then some 0
    else (find_sub pat rest).map (· + 1)

def eot_marker : List Char := "<end_of_turn>".toList

def sot_marker : List Char := "<start_of_turn>".toList

/-- The four textual stop patterns scanned in the generation loop. -/
def stop_patterns : List (List Char) :=
  ["<end_of_turn>".toList, "</s>".toList, "<|end|>".toList,
   "<start_of_turn>user".toList]

/-- accumulated_text.find(p) != npos for any configured pattern p. -/
def contains_stop (s : List Char) : Bool :=
  stop_patterns.any (fun p => (find_sub p s).isSome)

/-- response.find(pat) followed by response = response.substr(0, pos) when
the pattern occurs. -/
def cut_at (pat : List Char) (r : List Char) : List Char :=
  match find_sub pat r with
  | some i => r.take i
  | none => r

/-- The truncation performed when a stop pattern is seen: cut the response
at the first occurrence of the end-of-turn marker, then cut the result at
the first occurrence of the start-of-turn marker. -/
def truncate_response (r : List Char) : List Char :=
  cut_at sot_marker (cut_at eot_marker r)

/-! ### Chat formatting -/

/-- Oracle for llama_chat_apply_template on the single user message: the
required length the engine reports, and the text it writes (it writes at
most the buffer size; the application is deterministic, so both attempts
see the same values). -/
structure ChatTemplate where
  needed : Int
  out : List Char

/-- The fixed manual Gemma wrapper used when no template applies. -/
def gemma_fallback (msg : List Char) : List Char :=
  "<start_of_turn>user\n".toList ++ msg ++
    "<end_of_turn>\n<start_of_turn>model\n".toList

/-- format_chat_message: try the model template with a buffer of six times
the message length, on a reported-too-small result retry exactly once with
a buffer of the reported size plus one, otherwise fall back to the fixed
Gemma wrapper.  Also returns how many template applications were made. -/
def format_chat_message (tmpl : Option ChatTemplate) (msg : List Char) :
    List Char × Nat :=
  match tmpl with
  | none => (gemma_fallback msg, 0)
  | some t =>
    let size1 : Int := (6 * msg.length : Nat)
    if 0 < t.needed ∧ t.needed ≤ size1 then (t.out.take t.needed.toNat, 1)
    else if size1 < t.needed then
      if 0 < t.needed then (t.out.take t.needed.toNat, 2)
      else (gemma_fallback msg, 2)
    else (gemma_fallback msg, 1)

/-! ### Session state and engine oracles -/

/-- The llama_context_wrapper conversation bookkeeping.  kv models the
engine side cache contents (the tokens and positions already decoded);
sampler_accepted models the mutable sampler-chain state (the accept
history).  batch and seq_ids are the reusable buffers. -/
structure Wrapper where
  conversation_tokens : List Token
  n_past : Nat
  conversation_started : Bool
  batch : LlamaBatch
  seq_ids : List Nat
  sampler_accepted : List Token
  kv : List (Token × Nat)

instance : Inhabited Wrapper :=
  ⟨{ conversation_tokens := [], n_past := 0, conversation_started := false,
     batch := init_batch, seq_ids := [], sampler_accepted := [], kv := [] }⟩

/-- The wrapper as produced by a successful load, with the given reusable
buffers. -/
def fresh_wrapper (b : LlamaBatch) (sids : List Nat) : Wrapper :=
  { conversation_tokens := [], n_past := 0, conversation_started := false,
    batch := b, seq_ids := sids, sampler_accepted := [], kv := [] }

/-- Oracles describing the external engine during one predict call. -/
structure Engine where
  vocab_ok : Bool
  template : Option ChatTemplate
  tokenize : List Char → Option (List Token)
  n_ctx : Nat
  decodeOk : List (Token × Nat × Bool) → Bool
  sample : Nat → Token
  piece : Token → List Char
  eos : Token
  eot : Token

/-- llama_tokenize into a buffer of n_ctx entries: failure, or success that
does not fit the buffer, both surface as a tokenize failure. -/
def tokenize_result (e : Engine) (s : List Char) : Option (List Token) :=
  match e.tokenize s with
  | none => none
  | some ts => if e.n_ctx < ts.length then none else some ts

inductive StopReason
  | maxTokens | eosToken | stopPattern | decodeError | batchAddFail
  | contextLimit
deriving DecidableEq

inductive PredictStatus
  | notLoaded | vocabFail | tokenizeFail | processFail
  | stopped (r : StopReason)
deriving DecidableEq

structure LoopState where
  w : Wrapper
  response : List Char
  accumulated : List Char
  count : Nat

structure PredictOut where
  text : List Char
  wrapper : Option Wrapper
  genCount : Nat
  status : PredictStatus

/-- The wrapper after a successful single-token decode: token pushed,
buffers updated, position advanced, cache extended. -/
def decoded_wrapper (w : Wrapper) (tok : Token) (b' : LlamaBatch)
    (sids' : List Nat) : Wrapper :=
  { w with
     conversation_tokens := w.conversation_tokens ++ [tok],
     batch := b',
     seq_ids := sids',
     n_past := w.n_past + 1,
     kv := w.kv ++ [(tok, w.n_past)] }

/-- Loop state after a batch add failure in the loop: the token was already
pushed into the conversation, the batch stays cleared. -/
def addfail_state (st : LoopState) (w : Wrapper) (tok : Token)
    (resp acc : List Char) : LoopState :=
  { st with
     w := { w with
             conversation_tokens := w.conversation_tokens ++ [tok],
             batch := clear_batch w.batch },
     response := resp,
     accumulated := acc }

/-- Loop state after a decode failure in the loop: the token was already
pushed into the conversation, n_past is not advanced. -/
def decodefail_state (st : LoopState) (w : Wrapper) (tok : Token)
    (b' : LlamaBatch) (sids' : List Nat) (resp acc : List Char) : LoopState :=
  { st with
     w := { w with
             conversation_tokens := w.conversation_tokens ++ [tok],
             batch := b',
             seq_ids := sids' },
     response := resp,
     accumulated := acc }

/-- Loop state after a successful single-token decode. -/
def decoded_state (st : LoopState) (w : Wrapper) (tok : Token)
    (b' : LlamaBatch) (sids' : List Nat) (resp acc : List Char) : LoopState :=
  { st with
     w := decoded_wrapper w tok b' sids',
     response := resp,
     accumulated := acc,
     count := st.count + 1 }

/-- Tail of one generation iteration: push the token into the conversation,
rebuild the single-token batch at the current position, decode it, advance
n_past, and stop near the context limit (the check runs on the incremented
counter, so the condition is stated on n_past + 1). -/
def continue_decode (e : Engine) (st : LoopState) (w : Wrapper)
    (new_token : Token) (resp acc : List Char) : LoopState × Option StopReason :=
  match add_token_to_batch (clear_batch w.batch) new_token w.n_past w.seq_ids true with
  | none => (addfail_state st w new_token resp acc, some StopReason.batchAddFail)
  | some (b', sids') =>
    if e.decodeOk (batchView b') then
      if e.n_ctx - 10 ≤ w.n_past + 1 then
        (decoded_state st w new_token b' sids' resp acc,
         some StopReason.contextLimit)
      else (decoded_state st w new_token b' sids' resp acc, none)
    else
      (decodefail_state st w new_token b' sids' resp acc,
       some StopReason.decodeError)

/-- One iteration of the generation loop: sample, sentinel check, accept,
detokenize, stop-pattern scan with truncation, window trim, then decode. -/
def genStep (e : Engine) (i : Nat) (st : LoopState) : LoopState × Option StopReason :=
  let new_token := e.sample i
  if new_token = e.eos ∨ new_token = e.eot then (st, some StopReason.eosToken)
  else
    let w := { st.w with
               sampler_accepted := st.w.sampler_accepted ++ [new_token] }
    let p := e.piece new_token
    if p = [] then continue_decode e st w new_token st.response st.accumulated
    else
      let acc := st.accumulated ++ p
      let resp := st.response ++ p
      if contains_stop acc then
        ({ st with
            w := w,
            response := truncate_response resp,
            accumulated := acc }, some StopReason.stopPattern)
      else
        let acc2 := if 50 < acc.length then acc.drop (acc.length - 50) else acc
        continue_decode e st w new_token resp acc2

/-- The generation for loop, n_predict iterations of fuel. -/
def genLoop (e : Engine) : Nat → Nat → LoopState → LoopState × StopReason
  | 0, _, st => (st, StopReason.maxTokens)
  | f + 1, i, st =>
    match genStep e i st with
    | (st', some r) => (st', r)
    | (st', none) => genLoop e f (i + 1) st'

/-- The fresh-conversation initialisation at the top of predict: on the
first turn the engine cache is cleared and the local bookkeeping reset. -/
def started_wrapper (w : Wrapper) : Wrapper :=
  if w.conversation_started then w
  else { w with
          kv := [],
          conversation_tokens := [],
          n_past := 0,
          conversation_started := true }

/-- The wrapper after the prompt tokens were appended and the prompt batch
was decoded successfully: position advanced by the prompt length, buffers
updated, engine cache extended by the decoded batch. -/
def prompt_decoded_wrapper (w1 : Wrapper) (pts : List Token)
    (b' : LlamaBatch) (sids' : List Nat) : Wrapper :=
  { w1 with
     conversation_tokens := w1.conversation_tokens ++ pts,
     batch := b',
     seq_ids := sids',
     n_past := w1.n_past + pts.length,
     kv := w1.kv ++ (batchView b').map (fun x => (x.1, x.2.1)) }

/-- The wrapper after the prompt tokens were appended but the prompt batch
failed: position not advanced. -/
def prompt_failed_wrapper (w1 : Wrapper) (pts : List Token)
    (b' : LlamaBatch) (sids' : List Nat) : Wrapper :=
  { w1 with
     conversation_tokens := w1.conversation_tokens ++ pts,
     batch := b',
     seq_ids := sids' }

/-- Package the generation loop result as the predict return value. -/
def loop_out (r : LoopState × StopReason) : PredictOut :=
  ⟨r.1.response, some r.1.w, r.1.count, PredictStatus.stopped r.2⟩

/-- Prompt ingestion followed by the bounded generation loop, starting from
the (already conversation-initialised) wrapper w1. -/
def ingest_and_generate (e : Engine) (w1 : Wrapper) (pts : List Token) :
    PredictOut :=
  let pr := process_tokens_in_batches e.decodeOk w1.batch pts w1.seq_ids
    w1.n_past true
  if pr.1 ≠ (pts.length : Int) then
    ⟨"Failed to process prompt".toList,
     some (prompt_failed_wrapper w1 pts pr.2.1 pr.2.2), 0,
     PredictStatus.processFail⟩
  else
    loop_out (genLoop e 20 0
      ⟨prompt_decoded_wrapper w1 pts pr.2.1 pr.2.2, [], [], 0⟩)

/-- predict: validity check, vocab fetch, chat formatting, tokenization,
fresh-conversation initialisation, prompt ingestion through the batch
builder, then the bounded generation loop. -/
def predict (w? : Option Wrapper) (e : Engine) (prompt : List Char) : PredictOut :=
  match w? with
  | none => ⟨"Model not loaded".toList, none, 0, PredictStatus.notLoaded⟩
  | some w =>
    if e.vocab_ok = false then
      ⟨"Failed to get vocab".toList, some w, 0, PredictStatus.vocabFail⟩
    else
      match tokenize_result e (format_chat_message e.template prompt).1 with
      | none => ⟨"Failed to tokenize prompt".toList, some w, 0,
                 PredictStatus.tokenizeFail⟩
      | some pts => ingest_and_generate e (started_wrapper w) pts

/-- reset_conversation: clear the engine cache, reset the sampler state,
clear the token history, zero the position counter, clear the started flag;
a null handle is a no-op.  The reusable buffers are kept. -/
def reset_conversation : Option Wrapper → Option Wrapper
  | none => none
  | some w => some { w with
                      kv := [],
                      sampler_accepted := [],
                      conversation_tokens := [],
                      n_past := 0,
                      conversation_started := false }

/-! ### Session construction and rollback -/

inductive Resource
  | modelRes | contextRes | samplerRes | batchRes
deriving DecidableEq

/-- Which construction steps succeed in one load call. -/
structure LoadEnv where
  model_ok : Bool
  context_ok : Bool
  sampler_ok : Bool
  batch_ok : Bool

/-- The release calls that llama_context_wrapper.cleanup makes given which
members are currently non-null: batch, sampler, context, model, in that
order, nulling each afterwards. -/
def cleanup_releases (has_batch has_sampler has_context has_model : Bool) :
    List Resource :=
  (if has_batch then [Resource.batchRes] else []) ++
  (if has_sampler then [Resource.samplerRes] else []) ++
  (if has_context then [Resource.contextRes] else []) ++
  (if has_model then [Resource.modelRes] else [])

/-- load_model_with_gpu: the returned handle and the ordered trace of
release calls made on the failure paths.  On a context creation failure the
code calls llama_model_free directly and then deletes the wrapper, whose
destructor runs cleanup with the model member still set. -/
def load_model_with_gpu (env : LoadEnv) : Option Wrapper × List Resource :=
  if env.model_ok = false then
    (none, cleanup_releases false false false false)
  else if env.context_ok = false then
    (none, [Resource.modelRes] ++ cleanup_releases false false false true)
  else if env.sampler_ok = false then
    (none, cleanup_releases false false true true ++
           cleanup_releases false false false false)
  else if env.batch_ok = false then
    (none, cleanup_releases false true true true ++
           cleanup_releases false false false false)
  else
    (some (fresh_wrapper init_batch (List.replicate 512 0)), [])

/-! ## Lemmas about the batch builder -/

/-- The entries the single-batch prompt ingestion is meant to write: token
j of the list at position start + i + j, logits only on the last entry. -/
def expected_entries : List Token → Nat → Nat → Nat → Bool → List (Token × Nat × Bool)
  | [], _, _, _, _ => []
  | t :: rest, start, i, total, ll =>
    (t, start + i, ll && (i == total - 1)) :: expected_entries rest start (i + 1) total ll

theorem batchView_clear (b : LlamaBatch) : batchView (clear_batch b) = [] := by
  simp [batchView, clear_batch]

theorem map_range_congr {α : Type} (f g : Nat → α) (n : Nat)
    (h : ∀ i, i < n → f i = g i) :
    (List.range n).map f = (List.range n).map g := by
  induction n with
  | zero => simp
  | succ k ih =>
    simp only [List.range_succ, List.map_append, List.map_cons, List.map_nil]
    rw [ih (fun i hi => h i (by omega)), h k (by omega)]

theorem add_token_full (b : LlamaBatch) (t : Token) (p : Nat) (sids : List Nat)
    (gl : Bool) (h : 512 ≤ b.n_tokens) :
    add_token_to_batch b t p sids gl = none := by
  simp [add_token_to_batch, h]

theorem add_token_some (b : LlamaBatch) (t : Token) (p : Nat) (sids : List Nat)
    (gl : Bool) (h : b.n_tokens < 512) :
    ∃ b' sids', add_token_to_batch b t p sids gl = some (b', sids') ∧
      b'.n_tokens = b.n_tokens + 1 ∧
      batchView b' = batchView b ++ [(t, p, gl)] := by
  have hne : ¬ 512 ≤ b.n_tokens := Nat.not_le.mpr h
  unfold add_token_to_batch
  rw [if_neg hne]
  refine ⟨_, _, rfl, rfl, ?_⟩
  unfold batchView
  show (List.range (b.n_tokens + 1)).map _ = _
  rw [List.range_succ, List.map_append]
  congr 1
  · exact map_range_congr _ _ _ (fun i hi => by
      simp only [Nat.ne_of_lt hi, if_false])
  · simp

/-- Success of the add loop when everything fits, with the exact view. -/
theorem add_tokens_loop_success (tokens : List Token) :
    ∀ (b : LlamaBatch) (sids : List Nat) (i total start : Nat) (ll : Bool),
    b.n_tokens + tokens.length ≤ 512 →
    ∃ b' sids', add_tokens_loop b sids tokens i total start ll = (true, b', sids') ∧
      b'.n_tokens = b.n_tokens + tokens.length ∧
      batchView b' = batchView b ++ expected_entries tokens start i total ll := by
  induction tokens with
  | nil => intro b sids i total start ll _; exact ⟨b, sids, rfl, by simp, by simp [expected_entries]⟩
  | cons t rest ih =>
    intro b sids i total start ll hle
    have hlt : b.n_tokens < 512 := by
      have := hle; simp only [List.length_cons] at this; omega
    obtain ⟨b1, sids1, hadd, hn1, hv1⟩ :=
      add_token_some b t (start + i) sids (ll && (i == total - 1)) hlt
    have hle1 : b1.n_tokens + rest.length ≤ 512 := by
      simp only [List.length_cons] at hle; omega
    obtain ⟨b2, sids2, hloop, hn2, hv2⟩ := ih b1 sids1 (i + 1) total start ll hle1
    refine ⟨b2, sids2, ?_, ?_, ?_⟩
    · simp only [add_tokens_loop, hadd]; exact hloop
    · simp only [List.length_cons]; omega
    · rw [hv2, hv1, expected_entries]; simp

/-- The add loop fails as soon as the 512 entry capacity would be passed. -/
theorem add_tokens_loop_fail (tokens : List Token) :
    ∀ (b : LlamaBatch) (sids : List Nat) (i total start : Nat) (ll : Bool),
    b.n_tokens ≤ 512 →
    512 < b.n_tokens + tokens.length →
    (add_tokens_loop b sids tokens i total start ll).1 = false := by
  induction tokens with
  | nil => intro b sids i total start ll hb h; simp at h; omega
  | cons t rest ih =>
    intro b sids i total start ll hb h
    by_cases hfull : 512 ≤ b.n_tokens
    · simp only [add_tokens_loop, add_token_full b _ _ _ _ hfull]
    · have hlt : b.n_tokens < 512 := Nat.not_le.mp hfull
      obtain ⟨b1, sids1, hadd, hn1, _⟩ :=
        add_token_some b t (start + i) sids (ll && (i == total - 1)) hlt
      simp only [add_tokens_loop, hadd]
      apply ih
      · omega
      · simp only [List.length_cons] at h; omega

/-- Successful single-batch prompt ingestion. -/
theorem process_success (decodeOk : List (Token × Nat × Bool) → Bool)
    (b : LlamaBatch) (tokens : List Token) (sids : List Nat) (start : Nat)
    (hlen : tokens.length ≤ 512)
    (hdec : decodeOk (expected_entries tokens start 0 tokens.length true) = true) :
    ∃ b' sids',
      process_tokens_in_batches decodeOk b tokens sids start true =
        ((tokens.length : Int), b', sids') ∧
      b'.n_tokens = tokens.length ∧
      batchView b' = expected_entries tokens start 0 tokens.length true := by
  obtain ⟨b', sids', hloop, hn, hv⟩ :=
    add_tokens_loop_success tokens (clear_batch b) sids 0 tokens.length start true
      (by simp [clear_batch]; omega)
  rw [batchView_clear] at hv
  simp only [List.nil_append] at hv
  refine ⟨b', sids', ?_, by simpa [clear_batch] using hn, hv⟩
  simp only [process_tokens_in_batches, hloop, hv, hdec, if_true]

/-- A token list longer than the capacity makes ingestion fail with -1. -/
theorem process_overflow (decodeOk : List (Token × Nat × Bool) → Bool)
    (b : LlamaBatch) (tokens : List Token) (sids : List Nat) (start : Nat)
    (ll : Bool) (h : 512 < tokens.length) :
    (process_tokens_in_batches decodeOk b tokens sids start ll).1 = -1 := by
  have hf := add_tokens_loop_fail tokens (clear_batch b) sids 0 tokens.length start ll
    (by simp [clear_batch]) (by simp [clear_batch]; omega)
  simp [process_tokens_in_batches, hf]

/-! ## Per-step lemmas about the generation loop -/

theorem continue_decode_eq_none (e : Engine) (st : LoopState) (w : Wrapper)
    (tok : Token) (resp acc : List Char)
    (hadd : add_token_to_batch (clear_batch w.batch) tok w.n_past w.seq_ids true = none) :
    continue_decode e st w tok resp acc =
      (addfail_state st w tok resp acc, some StopReason.batchAddFail) := by
  unfold continue_decode; rw [hadd]

theorem continue_decode_eq_some (e : Engine) (st : LoopState) (w : Wrapper)
    (tok : Token) (resp acc : List Char) (b' : LlamaBatch) (sids' : List Nat)
    (hadd : add_token_to_batch (clear_batch w.batch) tok w.n_past w.seq_ids true =
      some (b', sids')) :
    continue_decode e st w tok resp acc =
      (if e.decodeOk (batchView b') = true then
        if e.n_ctx - 10 ≤ w.n_past + 1 then
          (decoded_state st w tok b' sids' resp acc, some StopReason.contextLimit)
        else (decoded_state st w tok b' sids' resp acc, none)
      else
        (decodefail_state st w tok b' sids' resp acc,
         some StopReason.decodeError)) := by
  unfold continue_decode; rw [hadd]

theorem continue_decode_spec (e : Engine) (st : LoopState) (w : Wrapper)
    (tok : Token) (resp acc : List Char) :
    ∃ st' or, continue_decode e st w tok resp acc = (st', or) ∧
      st'.response = resp ∧
      st'.w.sampler_accepted = w.sampler_accepted ∧
      st'.w.conversation_started = w.conversation_started ∧
      st'.w.conversation_tokens = w.conversation_tokens ++ [tok] ∧
      or ≠ some StopReason.stopPattern ∧
      or ≠ some StopReason.eosToken ∧
      ((or = none ∨ or = some StopReason.contextLimit) →
        st'.w.n_past = w.n_past + 1 ∧ st'.count = st.count + 1) ∧
      ((or = some StopReason.decodeError ∨ or = some StopReason.batchAddFail) →
        st'.w.n_past = w.n_past ∧ st'.count = st.count) ∧
      (or = none ∨ or = some StopReason.contextLimit ∨
        or = some StopReason.decodeError ∨ or = some StopReason.batchAddFail) ∧
      (or = none → st'.w.n_past < e.n_ctx - 10) ∧
      (or = some StopReason.contextLimit → e.n_ctx - 10 ≤ st'.w.n_past) := by
  cases hadd : add_token_to_batch (clear_batch w.batch) tok w.n_past w.seq_ids true with
  | none =>
    rw [continue_decode_eq_none e st w tok resp acc hadd]
    refine ⟨_, _, rfl, rfl, rfl, rfl, rfl, by decide, by decide, ?_, ?_, ?_, ?_, ?_⟩
    · rintro (h | h) <;> exact absurd h (by decide)
    · exact fun _ => ⟨rfl, rfl⟩
    · exact Or.inr (Or.inr (Or.inr rfl))
    · intro h; exact absurd h (by decide)
    · intro h; exact absurd h (by decide)
  | some pr =>
    obtain ⟨b', sids'⟩ := pr
    rw [continue_decode_eq_some e st w tok resp acc b' sids' hadd]
    by_cases hdec : e.decodeOk (batchView b') = true
    · rw [if_pos hdec]
      by_cases hctx : e.n_ctx - 10 ≤ w.n_past + 1
      · rw [if_pos hctx]
        refine ⟨_, _, rfl, rfl, rfl, rfl, rfl, by decide, by decide, ?_, ?_, ?_, ?_, ?_⟩
        · exact fun _ => ⟨rfl, rfl⟩
        · rintro (h | h) <;> exact absurd h (by decide)
        · exact Or.inr (Or.inl rfl)
        · intro h; exact absurd h (by decide)
        · intro _; exact hctx
      · rw [if_neg hctx]
        refine ⟨_, _, rfl, rfl, rfl, rfl, rfl, by decide, by decide, ?_, ?_, ?_, ?_, ?_⟩
        · exact fun _ => ⟨rfl, rfl⟩
        · rintro (h | h) <;> exact absurd h (by decide)
        · exact Or.inl rfl
        · intro _
          have hd : (decoded_state st w tok b' sids' resp acc).w.n_past =
            w.n_past + 1 := rfl
          omega
        · intro h; exact absurd h (by decide)
    · rw [if_neg hdec]
      refine ⟨_, _, rfl, rfl, rfl, rfl, rfl, by decide, by decide, ?_, ?_, ?_, ?_, ?_⟩
      · rintro (h | h) <;> exact absurd h (by decide)
      · exact fun _ => ⟨rfl, rfl⟩
      · exact Or.inr (Or.inr (Or.inl rfl))
      · intro h; exact absurd h (by decide)
      · intro h; exact absurd h (by decide)

/-- One-step summary of the generation loop body: how the counters, the
accept history, the response and the conversation evolve, for every
possible outcome. -/
theorem genStep_spec (e : Engine) (i : Nat) (st : LoopState) :
    ∃ st' or, genStep e i st = (st', or) ∧
      st'.w.conversation_started = st.w.conversation_started ∧
      (st'.w.n_past + st.count = st.w.n_past + st'.count) ∧
      (st.count ≤ st'.count ∧ st'.count ≤ st.count + 1) ∧
      (∃ ts, st'.w.sampler_accepted = st.w.sampler_accepted ++ ts ∧
        ts.length ≤ 1 ∧
        (∀ t ∈ ts, ¬(t = e.eos ∨ t = e.eot)) ∧
        (or = some StopReason.stopPattern →
          st'.response =
            truncate_response (st.response ++ (ts.map e.piece).flatten)) ∧
        (or ≠ some StopReason.stopPattern →
          st'.response = st.response ++ (ts.map e.piece).flatten)) ∧
      ((or ≠ some StopReason.decodeError ∧ or ≠ some StopReason.batchAddFail) →
        st'.w.conversation_tokens.length + st.w.n_past =
          st.w.conversation_tokens.length + st'.w.n_past) ∧
      (or = none → st'.w.n_past < e.n_ctx - 10) := by
  unfold genStep
  by_cases hs : e.sample i = e.eos ∨ e.sample i = e.eot
  · rw [if_pos hs]
    refine ⟨st, _, rfl, rfl, by omega, by omega,
      ⟨[], by simp, by simp, by simp, ?_, ?_⟩, ?_, ?_⟩
    · intro h; exact absurd h (by decide)
    · intro _; simp
    · intro _; rfl
    · intro h; exact absurd h (by decide)
  · rw [if_neg hs]
    set W : Wrapper :=
      { st.w with sampler_accepted := st.w.sampler_accepted ++ [e.sample i] }
      with hW
    have hWn : W.n_past = st.w.n_past := by rw [hW]
    have hWc : W.conversation_tokens = st.w.conversation_tokens := by rw [hW]
    have hWs : W.conversation_started = st.w.conversation_started := by rw [hW]
    have hWa : W.sampler_accepted = st.w.sampler_accepted ++ [e.sample i] := by
      rw [hW]
    have hts : ∀ t ∈ [e.sample i], ¬(t = e.eos ∨ t = e.eot) := by
      intro t ht
      rw [List.mem_singleton] at ht
      subst ht
      exact hs
    by_cases hp : e.piece (e.sample i) = []
    · rw [if_pos hp]
      obtain ⟨st', or, heq, hresp, hsac, hstarted, hconv, hnsp, hneos, hcont,
        hfail, hcases, hnone, hctxl⟩ :=
        continue_decode_spec e st W (e.sample i) st.response st.accumulated
      have hlen : st'.w.conversation_tokens.length =
          st.w.conversation_tokens.length + 1 := by
        rw [hconv, hWc]; simp
      refine ⟨st', or, heq, by rw [hstarted, hWs], ?_, ?_,
        ⟨[e.sample i], by rw [hsac, hWa], by simp, hts, ?_, ?_⟩, ?_, hnone⟩
      · rcases hcases with h | h | h | h <;> subst h
        · obtain ⟨h1, h2⟩ := hcont (Or.inl rfl); omega
        · obtain ⟨h1, h2⟩ := hcont (Or.inr rfl); omega
        · obtain ⟨h1, h2⟩ := hfail (Or.inl rfl); omega
        · obtain ⟨h1, h2⟩ := hfail (Or.inr rfl); omega
      · rcases hcases with h | h | h | h <;> subst h
        · obtain ⟨h1, h2⟩ := hcont (Or.inl rfl); omega
        · obtain ⟨h1, h2⟩ := hcont (Or.inr rfl); omega
        · obtain ⟨h1, h2⟩ := hfail (Or.inl rfl); omega
        · obtain ⟨h1, h2⟩ := hfail (Or.inr rfl); omega
      · intro h; exact absurd h hnsp
      · intro _; rw [hresp]; simp [hp]
      · intro hc
        rcases hcases with h | h | h | h <;> subst h
        · obtain ⟨h1, h2⟩ := hcont (Or.inl rfl); omega
        · obtain ⟨h1, h2⟩ := hcont (Or.inr rfl); omega
        · exact absurd rfl hc.1
        · exact absurd rfl hc.2
    · rw [if_neg hp]
      by_cases hpat : contains_stop (st.accumulated ++ e.piece (e.sample i)) = true
      · rw [if_pos hpat]
        refine ⟨_, _, rfl, hWs, ?_, ?_,
          ⟨[e.sample i], hWa, by simp, hts, ?_, ?_⟩, ?_, ?_⟩
        · show W.n_past + st.count = st.w.n_past + st.count
          rw [hWn]
        · show st.count ≤ st.count ∧ st.count ≤ st.count + 1
          omega
        · intro _
          show truncate_response (st.response ++ e.piece (e.sample i)) = _
          simp
        · intro h; exact absurd rfl h
        · intro _
          show W.conversation_tokens.length + st.w.n_past =
            st.w.conversation_tokens.length + W.n_past
          rw [hWc, hWn]
        · intro h; exact absurd h (by decide)
      · rw [if_neg hpat]
        obtain ⟨st', or, heq, hresp, hsac, hstarted, hconv, hnsp, hneos, hcont,
          hfail, hcases, hnone, hctxl⟩ :=
          continue_decode_spec e st W (e.sample i) (st.response ++ e.piece (e.sample i))
            (if 50 < (st.accumulated ++ e.piece (e.sample i)).length then
              (st.accumulated ++ e.piece (e.sample i)).drop
                ((st.accumulated ++ e.piece (e.sample i)).length - 50)
            else st.accumulated ++ e.piece (e.sample i))
        have hlen : st'.w.conversation_tokens.length =
            st.w.conversation_tokens.length + 1 := by
          rw [hconv, hWc]; simp
        refine ⟨st', or, heq, by rw [hstarted, hWs], ?_, ?_,
          ⟨[e.sample i], by rw [hsac, hWa], by simp, hts, ?_, ?_⟩, ?_, hnone⟩
        · rcases hcases with h | h | h | h <;> subst h
          · obtain ⟨h1, h2⟩ := hcont (Or.inl rfl); omega
          · obtain ⟨h1, h2⟩ := hcont (Or.inr rfl); omega
          · obtain ⟨h1, h2⟩ := hfail (Or.inl rfl); omega
          · obtain ⟨h1, h2⟩ := hfail (Or.inr rfl); omega
        · rcases hcases with h | h | h | h <;> subst h
          · obtain ⟨h1, h2⟩ := hcont (Or.inl rfl); omega
          · obtain ⟨h1, h2⟩ := hcont (Or.inr rfl); omega
          · obtain ⟨h1, h2⟩ := hfail (Or.inl rfl); omega
          · obtain ⟨h1, h2⟩ := hfail (Or.inr rfl); omega
        · intro h; exact absurd h hnsp
        · intro _; rw [hresp]; simp
        · intro hc
          rcases hcases with h | h | h | h <;> subst h
          · obtain ⟨h1, h2⟩ := hcont (Or.inl rfl); omega
          · obtain ⟨h1, h2⟩ := hcont (Or.inr rfl); omega
          · exact absurd rfl hc.1
          · exact absurd rfl hc.2

theorem take_starts (n : Nat) (l : List Char) : l.take n <+: l :=
  ⟨l.drop n, List.take_append_drop n l⟩

theorem cut_at_starts (pat r : List Char) : cut_at pat r <+: r := by
  unfold cut_at
  cases h : find_sub pat r with
  | none => exact ⟨[], List.append_nil _⟩
  | some i => exact take_starts i r

/-- The stop-pattern truncation only ever cuts the response shorter: the
result is an initial segment of the input. -/
theorem truncate_response_cuts (r : List Char) : truncate_response r <+: r :=
  (cut_at_starts sot_marker (cut_at eot_marker r)).trans (cut_at_starts eot_marker r)

/-- Aggregate behaviour of the generation loop over its whole fuel: counter
coupling, bounded growth, accepted tokens are never sentinels, the response
is an initial segment of the concatenated pieces of the accepted tokens,
conversation length tracks the position counter unless a decode or add
failure interrupts, and the context margin is respected. -/
theorem genLoop_spec (e : Engine) :
    ∀ (f i : Nat) (st : LoopState),
    ∃ st' r, genLoop e f i st = (st', r) ∧
      st'.w.conversation_started = st.w.conversation_started ∧
      (st'.w.n_past + st.count = st.w.n_past + st'.count) ∧
      (st.count ≤ st'.count ∧ st'.count ≤ st.count + f) ∧
      (∃ ts, st'.w.sampler_accepted = st.w.sampler_accepted ++ ts ∧
        ts.length ≤ f ∧
        (∀ t ∈ ts, ¬(t = e.eos ∨ t = e.eot)) ∧
        st'.response <+: st.response ++ (ts.map e.piece).flatten ∧
        (r = StopReason.stopPattern → ∃ r0, st'.response = truncate_response r0)) ∧
      ((r ≠ StopReason.decodeError ∧ r ≠ StopReason.batchAddFail) →
        st'.w.conversation_tokens.length + st.w.n_past =
          st.w.conversation_tokens.length + st'.w.n_past) ∧
      (st.w.n_past < e.n_ctx - 10 → st'.w.n_past ≤ e.n_ctx - 10) := by
  intro f
  induction f with
  | zero =>
    intro i st
    refine ⟨st, StopReason.maxTokens, rfl, rfl, by omega, by omega,
      ⟨[], by simp, by simp, by simp, ⟨[], by simp⟩,
        fun h => absurd h (by decide)⟩,
      fun _ => rfl, by omega⟩
  | succ f ih =>
    intro i st
    obtain ⟨st1, or, hstep, hstarted, hcoup, hcnt,
      ⟨ts1, hacc1, htl1, hsent1, hstop1, hnstop1⟩, hconv1, hnone1⟩ :=
      genStep_spec e i st
    cases or with
    | some r0 =>
      have hloop : genLoop e (f + 1) i st = (st1, r0) := by
        unfold genLoop; rw [hstep]
      refine ⟨st1, r0, hloop, hstarted, hcoup, by omega,
        ⟨ts1, hacc1, by omega, hsent1, ?_, ?_⟩, ?_, by omega⟩
      · by_cases hsp : r0 = StopReason.stopPattern
        · subst hsp
          rw [hstop1 rfl]
          exact truncate_response_cuts _
        · rw [hnstop1 (fun hcon => hsp (Option.some.inj hcon))]
      · intro hr
        exact ⟨st.response ++ (ts1.map e.piece).flatten, hstop1 (by rw [hr])⟩
      · intro hc
        exact hconv1 ⟨fun hcon => hc.1 (Option.some.inj hcon),
          fun hcon => hc.2 (Option.some.inj hcon)⟩
    | none =>
      have hloop : genLoop e (f + 1) i st = genLoop e f (i + 1) st1 := by
        have h0 : genLoop e (f + 1) i st =
            (match genStep e i st with
             | (st', some r) => (st', r)
             | (st', none) => genLoop e f (i + 1) st') := rfl
        rw [h0, hstep]
      obtain ⟨st', r, hrec, h2started, h2coup, h2cnt,
        ⟨ts2, hacc2, htl2, hsent2, hpre2, hsp2⟩, h2conv, h2marg⟩ := ih (i + 1) st1
      have hr1 : st1.response = st.response ++ (ts1.map e.piece).flatten :=
        hnstop1 (by decide)
      refine ⟨st', r, by rw [hloop, hrec], by rw [h2started, hstarted],
        by omega, by omega, ⟨ts1 ++ ts2, ?_, ?_, ?_, ?_, hsp2⟩, ?_, ?_⟩
      · rw [hacc2, hacc1, List.append_assoc]
      · rw [List.length_append]; omega
      · intro t ht
        rcases List.mem_append.mp ht with h | h
        exacts [hsent1 t h, hsent2 t h]
      · rw [hr1] at hpre2
        have : st.response ++ (ts1.map e.piece).flatten ++ (ts2.map e.piece).flatten =
            st.response ++ ((ts1 ++ ts2).map e.piece).flatten := by
          simp [List.append_assoc]
        rw [this] at hpre2
        exact hpre2
      · intro hc
        have e1 := hconv1 ⟨by decide, by decide⟩
        have e2 := h2conv hc
        omega
      · intro hm
        exact h2marg (hnone1 rfl)

/-! ## Predict-level unfolding lemmas -/

theorem started_wrapper_true (w : Wrapper) (h : w.conversation_started = true) :
    started_wrapper w = w := by
  unfold started_wrapper; rw [if_pos h]

theorem started_wrapper_false (w : Wrapper)
    (h : w.conversation_started = false) :
    started_wrapper w =
      { w with
         kv := [],
         conversation_tokens := [],
         n_past := 0,
         conversation_started := true } := by
  unfold started_wrapper; rw [if_neg (by simp [h])]

theorem predict_vocab_fail (w : Wrapper) (e : Engine) (p : List Char)
    (hv : e.vocab_ok = false) :
    predict (some w) e p =
      ⟨"Failed to get vocab".toList, some w, 0, PredictStatus.vocabFail⟩ := by
  simp only [predict]
  rw [if_pos hv]

theorem predict_tok_fail (w : Wrapper) (e : Engine) (p : List Char)
    (hv : e.vocab_ok = true)
    (ht : tokenize_result e (format_chat_message e.template p).1 = none) :
    predict (some w) e p =
      ⟨"Failed to tokenize prompt".toList, some w, 0,
       PredictStatus.tokenizeFail⟩ := by
  simp only [predict]
  rw [if_neg (by simp [hv]), ht]

theorem predict_tok_some (w : Wrapper) (e : Engine) (p : List Char)
    (pts : List Token) (hv : e.vocab_ok = true)
    (ht : tokenize_result e (format_chat_message e.template p).1 = some pts) :
    predict (some w) e p = ingest_and_generate e (started_wrapper w) pts := by
  simp only [predict]
  rw [if_neg (by simp [hv]), ht]

theorem ingest_and_generate_fail (e : Engine) (w1 : Wrapper) (pts : List Token)
    (hpr : (process_tokens_in_batches e.decodeOk w1.batch pts w1.seq_ids
      w1.n_past true).1 ≠ (pts.length : Int)) :
    ingest_and_generate e w1 pts =
      ⟨"Failed to process prompt".toList,
       some (prompt_failed_wrapper w1 pts
         (process_tokens_in_batches e.decodeOk w1.batch pts w1.seq_ids
           w1.n_past true).2.1
         (process_tokens_in_batches e.decodeOk w1.batch pts w1.seq_ids
           w1.n_past true).2.2), 0,
       PredictStatus.processFail⟩ := by
  unfold ingest_and_generate
  rw [if_pos hpr]

theorem ingest_and_generate_ok (e : Engine) (w1 : Wrapper) (pts : List Token)
    (hpr : (process_tokens_in_batches e.decodeOk w1.batch pts w1.seq_ids
      w1.n_past true).1 = (pts.length : Int)) :
    ingest_and_generate e w1 pts =
      loop_out (genLoop e 20 0
        ⟨prompt_decoded_wrapper w1 pts
          (process_tokens_in_batches e.decodeOk w1.batch pts w1.seq_ids
            w1.n_past true).2.1
          (process_tokens_in_batches e.decodeOk w1.batch pts w1.seq_ids
            w1.n_past true).2.2, [], [], 0⟩) := by
  unfold ingest_and_generate
  rw [if_neg (not_not_intro hpr)]

/-! ## Claim C1: batch splitting during prompt ingestion -/

theorem expected_entries_tokens (tokens : List Token) :
    ∀ (start i total : Nat) (ll : Bool),
    (expected_entries tokens start i total ll).map (fun x => x.1) = tokens := by
  induction tokens with
  | nil => intro start i total ll; rfl
  | cons t rest ih =>
    intro start i total ll
    simp only [expected_entries, List.map_cons, ih]

theorem expected_entries_positions (tokens : List Token) :
    ∀ (start i total : Nat) (ll : Bool),
    (expected_entries tokens start i total ll).map (fun x => x.2.1) =
      List.range' (start + i) tokens.length := by
  induction tokens with
  | nil => intro start i total ll; rfl
  | cons t rest ih =>
    intro start i total ll
    simp only [expected_entries, List.map_cons, List.length_cons,
      List.range'_succ, ih]
    rw [Nat.add_assoc]

/-- C1 (amended): prompt ingestion performs no chunking.  A token sequence
of length L at most the capacity 512 is ingested as a single batch whose
entries carry the tokens in order at the contiguous positions start,
start + 1, ..., start + L - 1 (one chunk, which equals ceil(L / 512) only
in this case); a sequence of length L > 512 is not split into ceil(L / 512)
chunks but rejected: process_tokens_in_batches returns -1. -/
theorem process_tokens_single_batch (decodeOk : List (Token × Nat × Bool) → Bool)
    (b : LlamaBatch) (tokens : List Token) (sids : List Nat) (start : Nat) :
    (tokens.length ≤ 512 →
      decodeOk (expected_entries tokens start 0 tokens.length true) = true →
      ∃ b' sids',
        process_tokens_in_batches decodeOk b tokens sids start true =
          ((tokens.length : Int), b', sids') ∧
        b'.n_tokens = tokens.length ∧
        (batchView b').map (fun x => x.1) = tokens ∧
        (batchView b').map (fun x => x.2.1) = List.range' start tokens.length) ∧
    (512 < tokens.length →
      (process_tokens_in_batches decodeOk b tokens sids start true).1 = -1) := by
  constructor
  · intro h1 h2
    obtain ⟨b', sids', heq, hn, hv⟩ :=
      process_success decodeOk b tokens sids start h1 h2
    refine ⟨b', sids', heq, hn, ?_, ?_⟩
    · rw [hv, expected_entries_tokens]
    · rw [hv, expected_entries_positions, Nat.add_zero]
  · exact process_overflow decodeOk b tokens sids start true

/-- Witness for the C1 theorem at the concrete input [4, 5, 6] with start
position 3 and an always-succeeding decode. -/
theorem process_tokens_single_batch_witness :
    (([(4 : Token), 5, 6]).length ≤ 512 ∧
     (fun _ => true : List (Token × Nat × Bool) → Bool)
       (expected_entries [(4 : Token), 5, 6] 3 0
         ([(4 : Token), 5, 6]).length true) = true) ∧
    (∃ b' sids',
      process_tokens_in_batches (fun _ => true) init_batch [(4 : Token), 5, 6]
        [] 3 true = ((([(4 : Token), 5, 6]).length : Int), b', sids') ∧
      b'.n_tokens = ([(4 : Token), 5, 6]).length ∧
      (batchView b').map (fun x => x.1) = [(4 : Token), 5, 6] ∧
      (batchView b').map (fun x => x.2.1) =
        List.range' 3 ([(4 : Token), 5, 6]).length) :=
  ⟨⟨by decide, rfl⟩,
   (process_tokens_single_batch (fun _ => true) init_batch [(4 : Token), 5, 6]
     [] 3).1 (by decide) rfl⟩

/-- C1 counterexample: a 1300-token sequence is not split into
ceil(1300 / 512) = 3 chunks; the single-batch ingestion fails with -1, so
the sequence is not decoded at all. -/
theorem process_tokens_1300_not_chunked :
    (process_tokens_in_batches (fun _ => true) init_batch
       (List.replicate 1300 (7 : Token)) (List.replicate 512 0) 0 true).1 = -1 ∧
    (process_tokens_in_batches (fun _ => true) init_batch
       (List.replicate 1300 (7 : Token)) (List.replicate 512 0) 0 true).1 ≠
      ((List.replicate 1300 (7 : Token)).length : Int) := by
  have h := process_overflow (fun _ => true) init_batch
    (List.replicate 1300 (7 : Token)) (List.replicate 512 0) 0 true
    (by rw [List.length_replicate]; omega)
  refine ⟨h, ?_⟩
  rw [h, List.length_replicate]
  decide

/-! ## Claim C6: defensive capacity check of add_token_to_batch -/

/-- C6: adding to a batch already holding 512 entries fails with the
distinct capacity error (returning false, mutating nothing); a successful
add writes exactly at index n_tokens < 512 and leaves every other slot of
the arrays unchanged. -/
theorem add_token_capacity (b : LlamaBatch) (t : Token) (p : Nat)
    (sids : List Nat) (gl : Bool) :
    (512 ≤ b.n_tokens → add_token_to_batch b t p sids gl = none) ∧
    (b.n_tokens < 512 →
      ∃ b' sids', add_token_to_batch b t p sids gl = some (b', sids') ∧
        b.n_tokens < 512 ∧
        b'.n_tokens = b.n_tokens + 1 ∧
        b'.token b.n_tokens = t ∧
        b'.pos b.n_tokens = p ∧
        b'.logits b.n_tokens = gl ∧
        (∀ j, j ≠ b.n_tokens →
          b'.token j = b.token j ∧ b'.pos j = b.pos j ∧
          b'.logits j = b.logits j)) := by
  constructor
  · exact add_token_full b t p sids gl
  · intro h
    have hne : ¬ 512 ≤ b.n_tokens := Nat.not_le.mpr h
    unfold add_token_to_batch
    rw [if_neg hne]
    exact ⟨_, _, rfl, h, rfl, by simp, by simp, by simp,
      fun j hj => ⟨by simp [hj], by simp [hj], by simp [hj]⟩⟩

/-- Witness for the C6 theorem: a full batch refuses the add, the fresh
empty batch accepts it at index 0. -/
theorem add_token_capacity_witness :
    (512 ≤ ({ init_batch with n_tokens := 512 } : LlamaBatch).n_tokens ∧
     add_token_to_batch { init_batch with n_tokens := 512 } 9 4 [] true =
       none) ∧
    (init_batch.n_tokens < 512 ∧
     ∃ b' sids', add_token_to_batch init_batch 9 4 [] true = some (b', sids') ∧
       init_batch.n_tokens < 512 ∧
       b'.n_tokens = init_batch.n_tokens + 1 ∧
       b'.token init_batch.n_tokens = 9 ∧
       b'.pos init_batch.n_tokens = 4 ∧
       b'.logits init_batch.n_tokens = true ∧
       (∀ j, j ≠ init_batch.n_tokens →
         b'.token j = init_batch.token j ∧ b'.pos j = init_batch.pos j ∧
         b'.logits j = init_batch.logits j)) :=
  ⟨⟨by decide, (add_token_capacity { init_batch with n_tokens := 512 } 9 4 []
      true).1 (by decide)⟩,
   ⟨by decide, (add_token_capacity init_batch 9 4 [] true).2 (by decide)⟩⟩

/-! ## Claim C3: load rollback -/

/-- C3: with the model loaded and context creation failing, load returns a
null handle but the model is released TWICE: once by the explicit
llama_model_free call and once more by the wrapper destructor, whose
cleanup still sees the model member set.  The sampler-failure and
batch-failure paths do release everything exactly once in reverse
acquisition order, and a model-load failure releases nothing. -/
theorem load_context_fail_double_free :
    (load_model_with_gpu ⟨true, false, true, true⟩).1 = none ∧
    (load_model_with_gpu ⟨true, false, true, true⟩).2 =
      [Resource.modelRes, Resource.modelRes] ∧
    (load_model_with_gpu ⟨true, false, true, true⟩).2.count Resource.modelRes
      = 2 ∧
    (load_model_with_gpu ⟨false, true, true, true⟩).2 = [] ∧
    (load_model_with_gpu ⟨true, true, false, true⟩).2 =
      [Resource.contextRes, Resource.modelRes] ∧
    (load_model_with_gpu ⟨true, true, true, false⟩).2 =
      [Resource.samplerRes, Resource.contextRes, Resource.modelRes] ∧
    (load_model_with_gpu ⟨true, true, true, true⟩).1 =
      some (fresh_wrapper init_batch (List.replicate 512 0)) :=
  ⟨rfl, rfl, rfl, rfl, rfl, rfl, rfl⟩

/-! ## Claim C8: the chat formatter is total -/

/-- C8: the chat formatter is total and deterministic: with no template the
fixed Gemma fallback is returned; a template reporting a non-positive
required length falls back as well; a template reporting a positive
required length is used, retrying with an exact-fit buffer exactly once
when the initial six-times-message-length buffer was too small; never more
than two template applications are made. -/
theorem format_chat_message_total (tmpl : Option ChatTemplate)
    (msg : List Char) :
    (format_chat_message tmpl msg).2 ≤ 2 ∧
    (tmpl = none → format_chat_message tmpl msg = (gemma_fallback msg, 0)) ∧
    (∀ t, tmpl = some t → t.needed ≤ 0 →
      (format_chat_message tmpl msg).1 = gemma_fallback msg) ∧
    (∀ t, tmpl = some t → 0 < t.needed →
      (format_chat_message tmpl msg).1 = t.out.take t.needed.toNat) ∧
    (∀ t, tmpl = some t →
      ((format_chat_message tmpl msg).2 = 2 ↔
        ((6 * msg.length : Nat) : Int) < t.needed)) := by
  cases tmpl with
  | none =>
    exact ⟨(by decide : (0 : Nat) ≤ 2), fun _ => rfl,
      fun t h => Option.noConfusion h, fun t h => Option.noConfusion h,
      fun t h => Option.noConfusion h⟩
  | some t =>
    have e1 : format_chat_message (some t) msg =
        (if 0 < t.needed ∧ t.needed ≤ ((6 * msg.length : Nat) : Int) then
          (t.out.take t.needed.toNat, 1)
        else if ((6 * msg.length : Nat) : Int) < t.needed then
          if 0 < t.needed then (t.out.take t.needed.toNat, 2)
          else (gemma_fallback msg, 2)
        else (gemma_fallback msg, 1)) := rfl
    rw [e1]
    by_cases h1 : 0 < t.needed ∧ t.needed ≤ ((6 * msg.length : Nat) : Int)
    · rw [if_pos h1]
      refine ⟨(by decide : (1 : Nat) ≤ 2), fun h => Option.noConfusion h,
        ?_, ?_, ?_⟩
      · intro t' ht' hneed
        injection ht' with h'
        subst h'
        omega
      · intro t' ht' _
        injection ht' with h'
        subst h'
        rfl
      · intro t' ht'
        injection ht' with h'
        subst h'
        constructor
        · intro h2; exact absurd h2 (by decide : ¬(1 : Nat) = 2)
        · intro hlt; omega
    · rw [if_neg h1]
      by_cases h2 : ((6 * msg.length : Nat) : Int) < t.needed
      · rw [if_pos h2]
        have h3 : 0 < t.needed := by omega
        rw [if_pos h3]
        refine ⟨(by decide : (2 : Nat) ≤ 2), fun h => Option.noConfusion h,
          ?_, ?_, ?_⟩
        · intro t' ht' hneed
          injection ht' with h'
          subst h'
          omega
        · intro t' ht' _
          injection ht' with h'
          subst h'
          rfl
        · intro t' ht'
          injection ht' with h'
          subst h'
          exact ⟨fun _ => h2, fun _ => rfl⟩
      · rw [if_neg h2]
        refine ⟨(by decide : (1 : Nat) ≤ 2), fun h => Option.noConfusion h,
          ?_, ?_, ?_⟩
        · intro t' ht' hneed
          injection ht' with h'
          subst h'
          rfl
        · intro t' ht' hpos
          injection ht' with h'
          subst h'
          exact absurd ⟨hpos, by omega⟩ h1
        · intro t' ht'
          injection ht' with h'
          subst h'
          exact ⟨fun hh => absurd hh (by decide : ¬(1 : Nat) = 2),
            fun hlt => absurd hlt h2⟩

/-- Witness for the C8 theorem: a template whose required length 30 exceeds
the 12-byte initial buffer for the message "hi" is used after the retry,
with exactly two applications; and a missing template yields the fixed
fallback. -/
theorem format_chat_message_total_witness :
    ((0 : Int) < (⟨30, "abcdefgh".toList⟩ : ChatTemplate).needed ∧
     (format_chat_message (some ⟨30, "abcdefgh".toList⟩) "hi".toList).1 =
       (⟨30, "abcdefgh".toList⟩ : ChatTemplate).out.take
         ((⟨30, "abcdefgh".toList⟩ : ChatTemplate).needed.toNat)) ∧
    format_chat_message none "hi".toList = (gemma_fallback "hi".toList, 0) ∧
    ((format_chat_message (some ⟨30, "abcdefgh".toList⟩) "hi".toList).2 = 2 ↔
      ((6 * ("hi".toList).length : Nat) : Int) <
        (⟨30, "abcdefgh".toList⟩ : ChatTemplate).needed) :=
  ⟨⟨by decide,
    (format_chat_message_total (some ⟨30, "abcdefgh".toList⟩) "hi".toList).2.2.2.1
      ⟨30, "abcdefgh".toList⟩ rfl (by decide)⟩,
   (format_chat_message_total none "hi".toList).2.1 rfl,
   (format_chat_message_total (some ⟨30, "abcdefgh".toList⟩) "hi".toList).2.2.2.2
     ⟨30, "abcdefgh".toList⟩ rfl⟩

/-! ## Claim C9: tokenize failure leaves the state unchanged -/

/-- C9: when tokenization of the formatted prompt fails, predict returns
the error message string and the very same wrapper: token history, position
counter and started flag are all untouched, because tokenization happens
before any conversation-state mutation. -/
theorem predict_tokenize_fail_state_unchanged (w : Wrapper) (e : Engine)
    (p : List Char) (hv : e.vocab_ok = true)
    (ht : tokenize_result e (format_chat_message e.template p).1 = none) :
    predict (some w) e p =
      ⟨"Failed to tokenize prompt".toList, some w, 0,
       PredictStatus.tokenizeFail⟩ :=
  predict_tok_fail w e p hv ht

/-- Concrete engine whose tokenizer always fails. -/
def e_tokfail : Engine :=
  { vocab_ok := true, template := none, tokenize := fun _ => none,
    n_ctx := 1024, decodeOk := fun _ => true, sample := fun _ => 0,
    piece := fun _ => [], eos := 0, eot := 0 }

/-- The freshly loaded wrapper used as a concrete session by witnesses and
counterexamples. -/
def w512 : Wrapper := fresh_wrapper init_batch (List.replicate 512 0)

/-- Witness for the C9 theorem on a concrete failing tokenizer. -/
theorem predict_tokenize_fail_state_unchanged_witness :
    e_tokfail.vocab_ok = true ∧
    tokenize_result e_tokfail
      (format_chat_message e_tokfail.template "hi".toList).1 = none ∧
    predict (some w512) e_tokfail "hi".toList =
      ⟨"Failed to tokenize prompt".toList, some w512, 0,
       PredictStatus.tokenizeFail⟩ :=
  ⟨rfl, rfl, predict_tokenize_fail_state_unchanged w512 e_tokfail "hi".toList
    rfl rfl⟩

/-! ## Claim C10: the generation loop is bounded -/

theorem started_wrapper_sampler (w : Wrapper) :
    (started_wrapper w).sampler_accepted = w.sampler_accepted := by
  unfold started_wrapper
  split <;> rfl

/-- C10: every predict call generates at most 20 tokens: the decoded
generation count is at most 20 and the sampler accept history grows by at
most 20 entries, because the loop runs at most n_predict = 20 iterations. -/
theorem predict_generation_bounded (w : Wrapper) (e : Engine) (p : List Char) :
    (predict (some w) e p).genCount ≤ 20 ∧
    ((predict (some w) e p).wrapper.getD w).sampler_accepted.length ≤
      w.sampler_accepted.length + 20 := by
  cases hv : e.vocab_ok with
  | false =>
    rw [predict_vocab_fail w e p hv]
    exact ⟨(by decide : (0 : Nat) ≤ 20),
      by simp only [Option.getD_some]; omega⟩
  | true =>
    cases ht : tokenize_result e (format_chat_message e.template p).1 with
    | none =>
      rw [predict_tok_fail w e p hv ht]
      exact ⟨(by decide : (0 : Nat) ≤ 20),
        by simp only [Option.getD_some]; omega⟩
    | some pts =>
      rw [predict_tok_some w e p pts hv ht]
      by_cases hpr : (process_tokens_in_batches e.decodeOk
          (started_wrapper w).batch pts (started_wrapper w).seq_ids
          (started_wrapper w).n_past true).1 = (pts.length : Int)
      · rw [ingest_and_generate_ok e (started_wrapper w) pts hpr]
        set ST0 : LoopState :=
          ⟨prompt_decoded_wrapper (started_wrapper w) pts
            (process_tokens_in_batches e.decodeOk (started_wrapper w).batch
              pts (started_wrapper w).seq_ids (started_wrapper w).n_past
              true).2.1
            (process_tokens_in_batches e.decodeOk (started_wrapper w).batch
              pts (started_wrapper w).seq_ids (started_wrapper w).n_past
              true).2.2, [], [], 0⟩ with hST0
        obtain ⟨st', r, hloop, _, _, hcnt, ⟨ts, hacc, htl, _, _, _⟩, _, _⟩ :=
          genLoop_spec e 20 0 ST0
        have hc0 : ST0.count = 0 := by rw [hST0]
        have hs0 : ST0.w.sampler_accepted = w.sampler_accepted := by
          rw [hST0]
          exact started_wrapper_sampler w
        rw [hloop]
        constructor
        · show st'.count ≤ 20
          omega
        · show st'.w.sampler_accepted.length ≤ w.sampler_accepted.length + 20
          rw [hacc, hs0, List.length_append]
          omega
      · rw [ingest_and_generate_fail e (started_wrapper w) pts hpr]
        constructor
        · exact (by decide : (0 : Nat) ≤ 20)
        · show (started_wrapper w).sampler_accepted.length ≤
            w.sampler_accepted.length + 20
          rw [started_wrapper_sampler w]
          omega

/-! ## Claim C2: stop patterns and truncation -/

theorem starts_of_isPrefixOf {pat x : List Char}
    (h : pat.isPrefixOf x = true) : pat <+: x :=
  ( List.isPrefixOf_iff_prefix).mp h

theorem isPrefixOf_of_starts {pat x : List Char} (h : pat <+: x) :
    pat.isPrefixOf x = true :=
  ( List.isPrefixOf_iff_prefix).mpr h

theorem cons_take_starts (c : Char) (k : Nat) (l : List Char) :
    c :: l.take k <+: c :: l :=
  ⟨l.drop k, by rw [List.cons_append, List.take_append_drop]⟩

theorem find_sub_nil_none (pat : List Char) (hne : pat ≠ []) :
    find_sub pat ([] : List Char) = none := by
  unfold find_sub
  have h : ¬ pat.isPrefixOf ([] : List Char) = true := by
    intro hc
    obtain ⟨t, ht⟩ := starts_of_isPrefixOf hc
    cases pat with
    | nil => exact hne rfl
    | cons a b => simp at ht
  rw [if_neg h]

/-- If the pattern does not occur in s, it does not occur in any initial
segment of s either. -/
theorem find_sub_none_take (pat : List Char) (hne : pat ≠ []) :
    ∀ (s : List Char) (k : Nat), find_sub pat s = none →
    find_sub pat (s.take k) = none := by
  intro s
  induction s with
  | nil =>
    intro k _
    rw [List.take_nil]
    exact find_sub_nil_none pat hne
  | cons c rest ih =>
    intro k h
    unfold find_sub at h
    by_cases hp : pat.isPrefixOf (c :: rest) = true
    · rw [if_pos hp] at h
      exact absurd h (by simp)
    · rw [if_neg hp] at h
      have hrest : find_sub pat rest = none := by
        cases hr : find_sub pat rest with
        | none => rfl
        | some j => rw [hr] at h; simp at h
      cases k with
      | zero =>
        rw [List.take_zero]
        exact find_sub_nil_none pat hne
      | succ k' =>
        rw [List.take_succ_cons]
        unfold find_sub
        have hp2 : ¬ pat.isPrefixOf (c :: rest.take k') = true := fun hc =>
          hp (isPrefixOf_of_starts
            ((starts_of_isPrefixOf hc).trans (cons_take_starts c k' rest)))
        rw [if_neg hp2, ih k' hrest]
        rfl

/-- Cutting at the earliest occurrence leaves no occurrence before it. -/
theorem find_sub_some_take (pat : List Char) (hne : pat ≠ []) :
    ∀ (s : List Char) (i : Nat), find_sub pat s = some i →
    find_sub pat (s.take i) = none := by
  intro s
  induction s with
  | nil =>
    intro i h
    rw [find_sub_nil_none pat hne] at h
    exact absurd h (by simp)
  | cons c rest ih =>
    intro i h
    unfold find_sub at h
    by_cases hp : pat.isPrefixOf (c :: rest) = true
    · rw [if_pos hp] at h
      have hi : i = 0 := by
        injection h with h'
        omega
      rw [hi, List.take_zero]
      exact find_sub_nil_none pat hne
    · rw [if_neg hp] at h
      cases hr : find_sub pat rest with
      | none => rw [hr] at h; simp at h
      | some j =>
        rw [hr] at h
        simp at h
        rw [← h, List.take_succ_cons]
        unfold find_sub
        have hp2 : ¬ pat.isPrefixOf (c :: rest.take j) = true := fun hc =>
          hp (isPrefixOf_of_starts
            ((starts_of_isPrefixOf hc).trans (cons_take_starts c j rest)))
        rw [if_neg hp2, ih j hr]
        rfl

/-- cut_at removes every occurrence of its own pattern. -/
theorem cut_at_removes (pat : List Char) (hne : pat ≠ []) (r : List Char) :
    find_sub pat (cut_at pat r) = none := by
  unfold cut_at
  cases h : find_sub pat r with
  | none => exact h
  | some i => exact find_sub_some_take pat hne r i h

/-- cut_at with another pattern cannot reintroduce an absent pattern. -/
theorem cut_at_keeps_none (pat q : List Char) (hne : pat ≠ []) (r : List Char)
    (h : find_sub pat r = none) : find_sub pat (cut_at q r) = none := by
  unfold cut_at
  cases hq : find_sub q r with
  | none => exact h
  | some i => exact find_sub_none_take pat hne r i h

theorem truncate_no_eot (r : List Char) :
    find_sub eot_marker (truncate_response r) = none :=
  cut_at_keeps_none eot_marker sot_marker (by decide) (cut_at eot_marker r)
    (cut_at_removes eot_marker (by decide) r)

theorem truncate_no_sot (r : List Char) :
    find_sub sot_marker (truncate_response r) = none :=
  cut_at_removes sot_marker (by decide) (cut_at eot_marker r)

/-- C2 (amended): when the sampled token is no sentinel, detokenizes to
nonempty text and the trailing window then contains a stop pattern, the
loop stops with StopPattern and the response is truncated at the earliest
occurrence of the end-of-turn marker and then at the earliest occurrence of
the start-of-turn marker; consequently any predict call that ends on a stop
pattern returns text free of both of those markers.  The markers "</s>" and
"<|end|>" stop generation but are not removed from the text (see the
counterexample). -/
theorem stop_truncation (e : Engine) (i : Nat) (st : LoopState)
    (hs : ¬(e.sample i = e.eos ∨ e.sample i = e.eot))
    (hp : e.piece (e.sample i) ≠ [])
    (hpat : contains_stop (st.accumulated ++ e.piece (e.sample i)) = true) :
    ((genStep e i st).2 = some StopReason.stopPattern ∧
     (genStep e i st).1.response =
       truncate_response (st.response ++ e.piece (e.sample i))) ∧
    (∀ (w : Wrapper) (e' : Engine) (p : List Char),
      (predict (some w) e' p).status =
        PredictStatus.stopped StopReason.stopPattern →
      find_sub eot_marker (predict (some w) e' p).text = none ∧
      find_sub sot_marker (predict (some w) e' p).text = none) := by
  constructor
  · unfold genStep
    rw [if_neg hs, if_neg hp, if_pos hpat]
    exact ⟨rfl, rfl⟩
  · intro w e' p hst
    cases hv : e'.vocab_ok with
    | false =>
      rw [predict_vocab_fail w e' p hv] at hst
      exact absurd hst (by decide :
        ¬(PredictStatus.vocabFail =
          PredictStatus.stopped StopReason.stopPattern))
    | true =>
      cases ht : tokenize_result e' (format_chat_message e'.template p).1 with
      | none =>
        rw [predict_tok_fail w e' p hv ht] at hst
        exact absurd hst (by decide :
          ¬(PredictStatus.tokenizeFail =
            PredictStatus.stopped StopReason.stopPattern))
      | some pts =>
        rw [predict_tok_some w e' p pts hv ht] at hst ⊢
        by_cases hpr : (process_tokens_in_batches e'.decodeOk
            (started_wrapper w).batch pts (started_wrapper w).seq_ids
            (started_wrapper w).n_past true).1 = (pts.length : Int)
        · rw [ingest_and_generate_ok e' (started_wrapper w) pts hpr] at hst ⊢
          set ST0 : LoopState :=
            ⟨prompt_decoded_wrapper (started_wrapper w) pts
              (process_tokens_in_batches e'.decodeOk (started_wrapper w).batch
                pts (started_wrapper w).seq_ids (started_wrapper w).n_past
                true).2.1
              (process_tokens_in_batches e'.decodeOk (started_wrapper w).batch
                pts (started_wrapper w).seq_ids (started_wrapper w).n_past
                true).2.2, [], [], 0⟩ with hST0
          obtain ⟨st', r, hloop, _, _, _, ⟨ts, _, _, _, _, hsp2⟩, _, _⟩ :=
            genLoop_spec e' 20 0 ST0
          rw [hloop] at hst ⊢
          have hr : r = StopReason.stopPattern := by
            have h2 : PredictStatus.stopped r =
                PredictStatus.stopped StopReason.stopPattern := hst
            injection h2
          obtain ⟨r0, hr0⟩ := hsp2 hr
          show find_sub eot_marker st'.response = none ∧
            find_sub sot_marker st'.response = none
          rw [hr0]
          exact ⟨truncate_no_eot r0, truncate_no_sot r0⟩
        · rw [ingest_and_generate_fail e' (started_wrapper w) pts hpr] at hst
          exact absurd hst (by decide :
            ¬(PredictStatus.processFail =
              PredictStatus.stopped StopReason.stopPattern))

/-- Engine whose one generated token detokenizes to text containing the
end-of-turn marker. -/
def e_eotpat : Engine :=
  { vocab_ok := true, template := none, tokenize := fun _ => some [1],
    n_ctx := 1024, decodeOk := fun _ => true, sample := fun _ => 5,
    piece := fun _ => "A<end_of_turn>B".toList, eos := 99, eot := 98 }

/-- Witness for the C2 theorem: the step on the token whose text is
"A<end_of_turn>B" stops with StopPattern and truncates. -/
theorem stop_truncation_witness :
    (¬(e_eotpat.sample 0 = e_eotpat.eos ∨ e_eotpat.sample 0 = e_eotpat.eot) ∧
     e_eotpat.piece (e_eotpat.sample 0) ≠ [] ∧
     contains_stop ((⟨w512, [], [], 0⟩ : LoopState).accumulated ++
       e_eotpat.piece (e_eotpat.sample 0)) = true) ∧
    (genStep e_eotpat 0 ⟨w512, [], [], 0⟩).2 = some StopReason.stopPattern ∧
    (genStep e_eotpat 0 ⟨w512, [], [], 0⟩).1.response =
      truncate_response ((⟨w512, [], [], 0⟩ : LoopState).response ++
        e_eotpat.piece (e_eotpat.sample 0)) :=
  ⟨⟨by decide, by decide, by decide⟩,
   (stop_truncation e_eotpat 0 ⟨w512, [], [], 0⟩ (by decide) (by decide)
     (by decide)).1⟩

/-- Engine whose one generated token detokenizes to "</s>". -/
def e_slash : Engine :=
  { vocab_ok := true, template := none, tokenize := fun _ => some [1],
    n_ctx := 1024, decodeOk := fun _ => true, sample := fun _ => 5,
    piece := fun _ => "</s>".toList, eos := 99, eot := 98 }

/-- C2 counterexample: the first generated token detokenizes to "</s>";
generation stops on this configured stop pattern but the string returned by
predict is exactly "</s>": the matched marker is NOT excluded from the
returned text, because the truncation only searches for "<end_of_turn>" and
"<start_of_turn>". -/
theorem stop_marker_not_removed :
    (predict (some w512) e_slash "hi".toList).status =
      PredictStatus.stopped StopReason.stopPattern ∧
    (predict (some w512) e_slash "hi".toList).text = "</s>".toList ∧
    (find_sub "</s>".toList
      (predict (some w512) e_slash "hi".toList).text).isSome = true ∧
    "</s>".toList ∈ stop_patterns := by
  refine ⟨?_, ?_, ?_, ?_⟩ <;> decide

/-! ## Claims C4 and C5: position accounting and invariants -/

theorem started_wrapper_n_past (w : Wrapper)
    (hst : w.conversation_started = false → w.n_past = 0) :
    (started_wrapper w).n_past = w.n_past := by
  by_cases hb : w.conversation_started = true
  · rw [started_wrapper_true w hb]
  · have hb' : w.conversation_started = false := by simpa using hb
    rw [started_wrapper_false w hb']
    exact (hst hb').symm

theorem started_wrapper_inv (w : Wrapper)
    (hlen : w.conversation_started = true →
      w.n_past = w.conversation_tokens.length) :
    (started_wrapper w).n_past =
      (started_wrapper w).conversation_tokens.length := by
  by_cases hb : w.conversation_started = true
  · rw [started_wrapper_true w hb]
    exact hlen hb
  · have hb' : w.conversation_started = false := by simpa using hb
    rw [started_wrapper_false w hb']
    rfl

/-- C4 (amended): for every prompt that tokenizes successfully AND whose
prompt batch decodes successfully, after predict returns the position
counter equals position_before plus the prompt token count plus the number
of generated-and-decoded tokens, and the returned text is built only from
pieces of accepted non-sentinel tokens, so the end-of-sequence and
end-of-turn sentinels are never emitted into the response.  (If the prompt
batch fails to decode, position does not advance at all - see the
counterexample.) -/
theorem predict_position_accounting (w : Wrapper) (e : Engine) (p : List Char)
    (pts : List Token)
    (hv : e.vocab_ok = true)
    (ht : tokenize_result e (format_chat_message e.template p).1 = some pts)
    (hst : w.conversation_started = false → w.n_past = 0)
    (hpr : (process_tokens_in_batches e.decodeOk (started_wrapper w).batch pts
      (started_wrapper w).seq_ids (started_wrapper w).n_past true).1 =
      (pts.length : Int)) :
    ∃ w', (predict (some w) e p).wrapper = some w' ∧
      w'.n_past = w.n_past + pts.length + (predict (some w) e p).genCount ∧
      ∃ ts, w'.sampler_accepted = w.sampler_accepted ++ ts ∧
        (∀ t ∈ ts, ¬(t = e.eos ∨ t = e.eot)) ∧
        (predict (some w) e p).text <+: (ts.map e.piece).flatten := by
  rw [predict_tok_some w e p pts hv ht,
    ingest_and_generate_ok e (started_wrapper w) pts hpr]
  set ST0 : LoopState :=
    ⟨prompt_decoded_wrapper (started_wrapper w) pts
      (process_tokens_in_batches e.decodeOk (started_wrapper w).batch pts
        (started_wrapper w).seq_ids (started_wrapper w).n_past true).2.1
      (process_tokens_in_batches e.decodeOk (started_wrapper w).batch pts
        (started_wrapper w).seq_ids (started_wrapper w).n_past true).2.2,
      [], [], 0⟩ with hST0
  obtain ⟨st', r, hloop, _, hcoup, hcnt, ⟨ts, hacc, _, hsent, hpre, _⟩, _, _⟩ :=
    genLoop_spec e 20 0 ST0
  rw [hloop]
  have hc0 : ST0.count = 0 := by rw [hST0]
  have hn0 : ST0.w.n_past = w.n_past + pts.length := by
    rw [hST0]
    show (started_wrapper w).n_past + pts.length = w.n_past + pts.length
    rw [started_wrapper_n_past w hst]
  have hs0 : ST0.w.sampler_accepted = w.sampler_accepted := by
    rw [hST0]
    exact started_wrapper_sampler w
  have hr0 : ST0.response = [] := by rw [hST0]
  refine ⟨st'.w, rfl, ?_, ts, ?_, hsent, ?_⟩
  · show st'.w.n_past = w.n_past + pts.length + st'.count
    omega
  · rw [hacc, hs0]
  · show st'.response <+: (ts.map e.piece).flatten
    rw [hr0] at hpre
    simpa using hpre

/-- Engine on which everything succeeds: one prompt token, constant
non-sentinel samples with empty detokenization. -/
def e_allok : Engine :=
  { vocab_ok := true, template := none, tokenize := fun _ => some [1],
    n_ctx := 1024, decodeOk := fun _ => true, sample := fun _ => 5,
    piece := fun _ => [], eos := 0, eot := 1 }

/-- Witness for the C4 theorem on a fully succeeding engine. -/
theorem predict_position_accounting_witness :
    (e_allok.vocab_ok = true ∧
     tokenize_result e_allok
       (format_chat_message e_allok.template "hi".toList).1 = some [1] ∧
     (process_tokens_in_batches e_allok.decodeOk (started_wrapper w512).batch
       [(1 : Token)] (started_wrapper w512).seq_ids
       (started_wrapper w512).n_past true).1 = (([(1 : Token)]).length : Int)) ∧
    ∃ w', (predict (some w512) e_allok "hi".toList).wrapper = some w' ∧
      w'.n_past = w512.n_past + ([(1 : Token)]).length +
        (predict (some w512) e_allok "hi".toList).genCount ∧
      ∃ ts, w'.sampler_accepted = w512.sampler_accepted ++ ts ∧
        (∀ t ∈ ts, ¬(t = e_allok.eos ∨ t = e_allok.eot)) ∧
        (predict (some w512) e_allok "hi".toList).text <+:
          (ts.map e_allok.piece).flatten :=
  ⟨⟨rfl, rfl, by decide⟩,
   predict_position_accounting w512 e_allok "hi".toList [1] rfl rfl
     (fun _ => rfl) (by decide)⟩

/-- Engine whose prompt decode fails. -/
def e_decfail : Engine :=
  { vocab_ok := true, template := none, tokenize := fun _ => some [1],
    n_ctx := 1024, decodeOk := fun _ => false, sample := fun _ => 5,
    piece := fun _ => [], eos := 0, eot := 1 }

/-- C4 counterexample: the prompt tokenizes successfully (to one token) but
its batch fails to decode; predict returns an error with position still 0,
whereas the claim demands position_before + prompt_token_count +
generated_token_count = 0 + 1 + 0 = 1. -/
theorem predict_position_decode_fail :
    tokenize_result e_decfail
      (format_chat_message e_decfail.template "hi".toList).1 = some [1] ∧
    (predict (some w512) e_decfail "hi".toList).genCount = 0 ∧
    ((predict (some w512) e_decfail "hi".toList).wrapper.getD w512).n_past
      = 0 ∧
    ((predict (some w512) e_decfail "hi".toList).wrapper.getD w512).n_past ≠
      w512.n_past + ([(1 : Token)]).length +
        (predict (some w512) e_decfail "hi".toList).genCount := by
  refine ⟨?_, ?_, ?_, ?_⟩ <;> decide

/-- C5 (amended): every successful predict (one that stops for a reason
other than a decode or batch-add failure) preserves the invariant that the
position counter equals the length of the conversation token sequence; and
when the position after prompt ingestion stays below n_ctx - 10 the final
position stays at most n_ctx - 10.  Prompt ingestion itself performs no
capacity check, so across turns the position can exceed the context window
when the engine accepts the decodes - see the counterexample. -/
theorem position_invariant_preserved (w : Wrapper) (e : Engine) (p : List Char)
    (pts : List Token)
    (hv : e.vocab_ok = true)
    (ht : tokenize_result e (format_chat_message e.template p).1 = some pts)
    (hlen : w.conversation_started = true →
      w.n_past = w.conversation_tokens.length)
    (hst : w.conversation_started = false → w.n_past = 0)
    (r : StopReason)
    (hsucc : (predict (some w) e p).status = PredictStatus.stopped r)
    (hr1 : r ≠ StopReason.decodeError)
    (hr2 : r ≠ StopReason.batchAddFail) :
    ∃ w', (predict (some w) e p).wrapper = some w' ∧
      w'.n_past = w'.conversation_tokens.length ∧
      (w.n_past + pts.length < e.n_ctx - 10 → w'.n_past ≤ e.n_ctx - 10) := by
  rw [predict_tok_some w e p pts hv ht] at hsucc ⊢
  by_cases hpr : (process_tokens_in_batches e.decodeOk
      (started_wrapper w).batch pts (started_wrapper w).seq_ids
      (started_wrapper w).n_past true).1 = (pts.length : Int)
  · rw [ingest_and_generate_ok e (started_wrapper w) pts hpr] at hsucc ⊢
    set ST0 : LoopState :=
      ⟨prompt_decoded_wrapper (started_wrapper w) pts
        (process_tokens_in_batches e.decodeOk (started_wrapper w).batch pts
          (started_wrapper w).seq_ids (started_wrapper w).n_past true).2.1
        (process_tokens_in_batches e.decodeOk (started_wrapper w).batch pts
          (started_wrapper w).seq_ids (started_wrapper w).n_past true).2.2,
        [], [], 0⟩ with hST0
    obtain ⟨st', r', hloop, _, _, _, _, hconv, hmarg⟩ := genLoop_spec e 20 0 ST0
    rw [hloop] at hsucc ⊢
    have hrr : r' = r := by
      have h2 : PredictStatus.stopped r' = PredictStatus.stopped r := hsucc
      injection h2
    have hinv0 : ST0.w.n_past = ST0.w.conversation_tokens.length := by
      rw [hST0]
      show (started_wrapper w).n_past + pts.length =
        ((started_wrapper w).conversation_tokens ++ pts).length
      rw [List.length_append, started_wrapper_inv w hlen]
    have hn0 : ST0.w.n_past = w.n_past + pts.length := by
      rw [hST0]
      show (started_wrapper w).n_past + pts.length = w.n_past + pts.length
      rw [started_wrapper_n_past w hst]
    have hconv2 := hconv (by rw [hrr]; exact ⟨hr1, hr2⟩)
    refine ⟨st'.w, rfl, by omega, ?_⟩
    intro hm
    exact hmarg (by omega)
  · rw [ingest_and_generate_fail e (started_wrapper w) pts hpr] at hsucc
    exact absurd hsucc (fun hcon => PredictStatus.noConfusion hcon)

/-- Witness for the C5 theorem on the fully succeeding engine: the call
stops at the 20-token budget and the invariant holds afterwards. -/
theorem position_invariant_preserved_witness :
    ((predict (some w512) e_allok "hi".toList).status =
      PredictStatus.stopped StopReason.maxTokens) ∧
    ∃ w', (predict (some w512) e_allok "hi".toList).wrapper = some w' ∧
      w'.n_past = w'.conversation_tokens.length ∧
      (w512.n_past + ([(1 : Token)]).length < e_allok.n_ctx - 10 →
        w'.n_past ≤ e_allok.n_ctx - 10) :=
  ⟨by decide,
   position_invariant_preserved w512 e_allok "hi".toList [1] rfl rfl
     (fun h => Bool.noConfusion h) (fun _ => rfl) StopReason.maxTokens
     (by decide) (by decide) (by decide)⟩

/-- Engine tokenizing every prompt to 512 tokens, with every decode
accepted and empty detokenization. -/
def e_big : Engine :=
  { vocab_ok := true, template := none,
    tokenize := fun _ => some (List.replicate 512 3), n_ctx := 1024,
    decodeOk := fun _ => true, sample := fun _ => 7, piece := fun _ => [],
    eos := 0, eot := 1 }

set_option maxRecDepth 10000 in
/-- C5 counterexample: two successive 512-token turns on a 1024-token
context window: the first turn ends at position 532; the second ingests 512
more tokens with no capacity check and ends at position 1045 > 1024 = n_ctx
although every decode succeeded and predict stopped normally at the
context-margin check. -/
theorem position_exceeds_context :
    e_big.n_ctx = 1024 ∧
    (predict (some ((predict (some w512) e_big "x".toList).wrapper.getD w512))
        e_big "x".toList).status =
      PredictStatus.stopped StopReason.contextLimit ∧
    1024 < ((predict (some ((predict (some w512) e_big
        "x".toList).wrapper.getD w512)) e_big "x".toList).wrapper.getD
        w512).n_past := by
  refine ⟨rfl, ?_, ?_⟩ <;> decide

/-! ## Claim C7: reset refines a freshly created handle -/

/-- Agreement on every conversation-relevant field of the wrapper; the
reusable buffers (batch arrays and seq_ids) are exempt. -/
def convEq (w1 w2 : Wrapper) : Prop :=
  w1.conversation_tokens = w2.conversation_tokens ∧
  w1.n_past = w2.n_past ∧
  w1.conversation_started = w2.conversation_started ∧
  w1.sampler_accepted = w2.sampler_accepted ∧
  w1.kv = w2.kv

theorem add_tokens_loop_congr (tokens : List Token) :
    ∀ (b1 b2 : LlamaBatch) (s1 s2 : List Nat) (i total start : Nat) (ll : Bool),
    b1.n_tokens = b2.n_tokens → batchView b1 = batchView b2 →
    (add_tokens_loop b1 s1 tokens i total start ll).1 =
      (add_tokens_loop b2 s2 tokens i total start ll).1 ∧
    (add_tokens_loop b1 s1 tokens i total start ll).2.1.n_tokens =
      (add_tokens_loop b2 s2 tokens i total start ll).2.1.n_tokens ∧
    batchView (add_tokens_loop b1 s1 tokens i total start ll).2.1 =
      batchView (add_tokens_loop b2 s2 tokens i total start ll).2.1 := by
  induction tokens with
  | nil =>
    intro b1 b2 s1 s2 i total start ll hn hv
    exact ⟨rfl, hn, hv⟩
  | cons t rest ih =>
    intro b1 b2 s1 s2 i total start ll hn hv
    by_cases hfull : 512 ≤ b1.n_tokens
    · have hfull2 : 512 ≤ b2.n_tokens := hn ▸ hfull
      simp only [add_tokens_loop, add_token_full b1 _ _ _ _ hfull,
        add_token_full b2 _ _ _ _ hfull2]
      exact ⟨by trivial, hn, hv⟩
    · have hlt1 : b1.n_tokens < 512 := Nat.not_le.mp hfull
      have hlt2 : b2.n_tokens < 512 := by omega
      obtain ⟨b1', s1', hadd1, hn1, hv1⟩ :=
        add_token_some b1 t (start + i) s1 (ll && (i == total - 1)) hlt1
      obtain ⟨b2', s2', hadd2, hn2, hv2⟩ :=
        add_token_some b2 t (start + i) s2 (ll && (i == total - 1)) hlt2
      simp only [add_tokens_loop, hadd1, hadd2]
      exact ih b1' b2' s1' s2' (i + 1) total start ll (by omega)
        (by rw [hv1, hv2, hv])

theorem process_congr (d : List (Token × Nat × Bool) → Bool)
    (b1 b2 : LlamaBatch) (tokens : List Token) (s1 s2 : List Nat)
    (start1 start2 : Nat) (ll : Bool) (hstart : start1 = start2) :
    (process_tokens_in_batches d b1 tokens s1 start1 ll).1 =
      (process_tokens_in_batches d b2 tokens s2 start2 ll).1 ∧
    batchView (process_tokens_in_batches d b1 tokens s1 start1 ll).2.1 =
      batchView (process_tokens_in_batches d b2 tokens s2 start2 ll).2.1 := by
  subst hstart
  obtain ⟨h1, h2, h3⟩ := add_tokens_loop_congr tokens (clear_batch b1)
    (clear_batch b2) s1 s2 0 tokens.length start1 ll rfl
    (by rw [batchView_clear, batchView_clear])
  unfold process_tokens_in_batches
  by_cases hb : (add_tokens_loop (clear_batch b2) s2 tokens 0 tokens.length
      start1 ll).1 = true
  · have hb1 : (add_tokens_loop (clear_batch b1) s1 tokens 0 tokens.length
        start1 ll).1 = true := by rw [h1, hb]
    rw [if_pos hb1, if_pos hb, h3]
    by_cases hd : d (batchView (add_tokens_loop (clear_batch b2) s2 tokens 0
        tokens.length start1 ll).2.1) = true
    · rw [if_pos hd, if_pos hd]
      exact ⟨rfl, h3⟩
    · rw [if_neg hd, if_neg hd]
      exact ⟨rfl, h3⟩
  · have hb1 : ¬ (add_tokens_loop (clear_batch b1) s1 tokens 0 tokens.length
        start1 ll).1 = true := by rw [h1]; exact hb
    rw [if_neg hb1, if_neg hb]
    exact ⟨rfl, h3⟩

theorem clear_batch_lt (b : LlamaBatch) : (clear_batch b).n_tokens < 512 := by
  simp [clear_batch]

theorem decoded_wrapper_congr (w1 w2 : Wrapper) (tok : Token)
    (b1' b2' : LlamaBatch) (s1' s2' : List Nat) (hw : convEq w1 w2) :
    convEq (decoded_wrapper w1 tok b1' s1') (decoded_wrapper w2 tok b2' s2') := by
  obtain ⟨h1, h2, h3, h4, h5⟩ := hw
  refine ⟨?_, ?_, h3, h4, ?_⟩
  · show w1.conversation_tokens ++ [tok] = w2.conversation_tokens ++ [tok]
    rw [h1]
  · show w1.n_past + 1 = w2.n_past + 1
    rw [h2]
  · show w1.kv ++ [(tok, w1.n_past)] = w2.kv ++ [(tok, w2.n_past)]
    rw [h5, h2]

theorem push_only_congr (w1 w2 : Wrapper) (tok : Token)
    (b1' b2' : LlamaBatch) (s1' s2' : List Nat) (hw : convEq w1 w2) :
    convEq
      { w1 with
         conversation_tokens := w1.conversation_tokens ++ [tok],
         batch := b1',
         seq_ids := s1' }
      { w2 with
         conversation_tokens := w2.conversation_tokens ++ [tok],
         batch := b2',
         seq_ids := s2' } := by
  obtain ⟨h1, h2, h3, h4, h5⟩ := hw
  refine ⟨?_, h2, h3, h4, h5⟩
  show w1.conversation_tokens ++ [tok] = w2.conversation_tokens ++ [tok]
  rw [h1]

theorem continue_decode_congr (e : Engine) (st1 st2 : LoopState)
    (w1 w2 : Wrapper) (tok : Token) (resp1 resp2 acc1 acc2 : List Char)
    (hw : convEq w1 w2) (hresp : resp1 = resp2) (hacc : acc1 = acc2)
    (hcnt : st1.count = st2.count) :
    ((continue_decode e st1 w1 tok resp1 acc1).2 =
      (continue_decode e st2 w2 tok resp2 acc2).2) ∧
    (continue_decode e st1 w1 tok resp1 acc1).1.response =
      (continue_decode e st2 w2 tok resp2 acc2).1.response ∧
    (continue_decode e st1 w1 tok resp1 acc1).1.accumulated =
      (continue_decode e st2 w2 tok resp2 acc2).1.accumulated ∧
    (continue_decode e st1 w1 tok resp1 acc1).1.count =
      (continue_decode e st2 w2 tok resp2 acc2).1.count ∧
    convEq (continue_decode e st1 w1 tok resp1 acc1).1.w
      (continue_decode e st2 w2 tok resp2 acc2).1.w := by
  subst hresp
  subst hacc
  obtain ⟨hconv, hnp, hstart, hsam, hkv⟩ := hw
  obtain ⟨b1', s1', hadd1, hn1, hv1⟩ :=
    add_token_some (clear_batch w1.batch) tok w1.n_past w1.seq_ids true
      (clear_batch_lt w1.batch)
  obtain ⟨b2', s2', hadd2, hn2, hv2⟩ :=
    add_token_some (clear_batch w2.batch) tok w2.n_past w2.seq_ids true
      (clear_batch_lt w2.batch)
  rw [continue_decode_eq_some e st1 w1 tok resp1 acc1 b1' s1' hadd1,
      continue_decode_eq_some e st2 w2 tok resp1 acc1 b2' s2' hadd2]
  have hvv : batchView b1' = batchView b2' := by
    rw [hv1, hv2, batchView_clear, batchView_clear, hnp]
  rw [hvv]
  by_cases hd : e.decodeOk (batchView b2') = true
  · rw [if_pos hd, if_pos hd]
    by_cases hctx : e.n_ctx - 10 ≤ w2.n_past + 1
    · have hctx1 : e.n_ctx - 10 ≤ w1.n_past + 1 := by omega
      rw [if_pos hctx, if_pos hctx1]
      exact ⟨rfl, rfl, rfl, show st1.count + 1 = st2.count + 1 by omega,
        decoded_wrapper_congr w1 w2 tok b1' b2' s1' s2'
          ⟨hconv, hnp, hstart, hsam, hkv⟩⟩
    · have hctx1 : ¬ e.n_ctx - 10 ≤ w1.n_past + 1 := by omega
      rw [if_neg hctx, if_neg hctx1]
      exact ⟨rfl, rfl, rfl, show st1.count + 1 = st2.count + 1 by omega,
        decoded_wrapper_congr w1 w2 tok b1' b2' s1' s2'
          ⟨hconv, hnp, hstart, hsam, hkv⟩⟩
  · rw [if_neg hd, if_neg hd]
    exact ⟨rfl, rfl, rfl, hcnt,
      push_only_congr w1 w2 tok b1' b2' s1' s2'
        ⟨hconv, hnp, hstart, hsam, hkv⟩⟩

theorem genStep_congr (e : Engine) (i : Nat) (st1 st2 : LoopState)
    (hw : convEq st1.w st2.w) (hresp : st1.response = st2.response)
    (hacc : st1.accumulated = st2.accumulated) (hcnt : st1.count = st2.count) :
    ((genStep e i st1).2 = (genStep e i st2).2) ∧
    (genStep e i st1).1.response = (genStep e i st2).1.response ∧
    (genStep e i st1).1.accumulated = (genStep e i st2).1.accumulated ∧
    (genStep e i st1).1.count = (genStep e i st2).1.count ∧
    convEq (genStep e i st1).1.w (genStep e i st2).1.w := by
  unfold genStep
  have hW : convEq
      { st1.w with
         sampler_accepted := st1.w.sampler_accepted ++ [e.sample i] }
      { st2.w with
         sampler_accepted := st2.w.sampler_accepted ++ [e.sample i] } := by
    obtain ⟨h1, h2, h3, h4, h5⟩ := hw
    refine ⟨h1, h2, h3, ?_, h5⟩
    show st1.w.sampler_accepted ++ [e.sample i] =
      st2.w.sampler_accepted ++ [e.sample i]
    rw [h4]
  by_cases hs : e.sample i = e.eos ∨ e.sample i = e.eot
  · rw [if_pos hs, if_pos hs]
    exact ⟨rfl, hresp, hacc, hcnt, hw⟩
  · rw [if_neg hs, if_neg hs]
    by_cases hp : e.piece (e.sample i) = []
    · rw [if_pos hp, if_pos hp]
      exact continue_decode_congr e st1 st2 _ _ (e.sample i) st1.response
        st2.response st1.accumulated st2.accumulated hW hresp hacc hcnt
    · rw [if_neg hp, if_neg hp, hresp, hacc]
      by_cases hpat :
          contains_stop (st2.accumulated ++ e.piece (e.sample i)) = true
      · rw [if_pos hpat, if_pos hpat]
        exact ⟨rfl, rfl, rfl, hcnt, hW⟩
      · rw [if_neg hpat, if_neg hpat]
        exact continue_decode_congr e st1 st2 _ _ (e.sample i) _ _ _ _ hW rfl
          rfl hcnt

theorem genLoop_congr (e : Engine) :
    ∀ (f i : Nat) (st1 st2 : LoopState),
    convEq st1.w st2.w → st1.response = st2.response →
    st1.accumulated = st2.accumulated → st1.count = st2.count →
    ((genLoop e f i st1).2 = (genLoop e f i st2).2) ∧
    (genLoop e f i st1).1.response = (genLoop e f i st2).1.response ∧
    (genLoop e f i st1).1.count = (genLoop e f i st2).1.count ∧
    convEq (genLoop e f i st1).1.w (genLoop e f i st2).1.w := by
  intro f
  induction f with
  | zero =>
    intro i st1 st2 hw hr ha hc
    exact ⟨rfl, hr, hc, hw⟩
  | succ f ih =>
    intro i st1 st2 hw hr ha hc
    obtain ⟨h2, hr2, ha2, hc2, hw2⟩ := genStep_congr e i st1 st2 hw hr ha hc
    have e1 : genLoop e (f + 1) i st1 =
        (match genStep e i st1 with
         | (st', some r) => (st', r)
         | (st', none) => genLoop e f (i + 1) st') := rfl
    have e2 : genLoop e (f + 1) i st2 =
        (match genStep e i st2 with
         | (st', some r) => (st', r)
         | (st', none) => genLoop e f (i + 1) st') := rfl
    rw [e1, e2]
    cases h1 : genStep e i st1 with
    | mk st1' or1 =>
      cases h2' : genStep e i st2 with
      | mk st2' or2 =>
        rw [h1, h2'] at h2 hr2 ha2 hc2 hw2
        cases or1 with
        | some r =>
          cases or2 with
          | some r2 =>
            have hrr : r = r2 := by
              have h3 : (some r : Option StopReason) = some r2 := h2
              exact Option.some.inj h3
            exact ⟨by rw [hrr], hr2, hc2, hw2⟩
          | none => exact absurd h2 (by simp)
        | none =>
          cases or2 with
          | some r2 => exact absurd h2 (by simp)
          | none => exact ih (i + 1) st1' st2' hw2 hr2 ha2 hc2

theorem started_wrapper_congr (w1 w2 : Wrapper) (hw : convEq w1 w2) :
    convEq (started_wrapper w1) (started_wrapper w2) := by
  obtain ⟨h1, h2, h3, h4, h5⟩ := hw
  unfold started_wrapper
  rw [h3]
  by_cases hb : w2.conversation_started = true
  · rw [if_pos hb, if_pos hb]
    exact ⟨h1, h2, h3, h4, h5⟩
  · rw [if_neg hb, if_neg hb]
    exact ⟨rfl, rfl, rfl, h4, rfl⟩

/-- The externally observable outcome of predict depends only on the
conversation fields of the wrapper, never on the stale contents of the
reusable batch and seq_ids buffers. -/
theorem predict_congr (w1 w2 : Wrapper) (e : Engine) (p : List Char)
    (hw : convEq w1 w2) :
    (predict (some w1) e p).text = (predict (some w2) e p).text ∧
    (predict (some w1) e p).genCount = (predict (some w2) e p).genCount ∧
    (predict (some w1) e p).status = (predict (some w2) e p).status := by
  cases hv : e.vocab_ok with
  | false =>
    rw [predict_vocab_fail w1 e p hv, predict_vocab_fail w2 e p hv]
    exact ⟨rfl, rfl, rfl⟩
  | true =>
    cases ht : tokenize_result e (format_chat_message e.template p).1 with
    | none =>
      rw [predict_tok_fail w1 e p hv ht, predict_tok_fail w2 e p hv ht]
      exact ⟨rfl, rfl, rfl⟩
    | some pts =>
      rw [predict_tok_some w1 e p pts hv ht, predict_tok_some w2 e p pts hv ht]
      have hw1 : convEq (started_wrapper w1) (started_wrapper w2) :=
        started_wrapper_congr w1 w2 hw
      have hnp : (started_wrapper w1).n_past = (started_wrapper w2).n_past :=
        hw1.2.1
      obtain ⟨hpc, hpv⟩ := process_congr e.decodeOk (started_wrapper w1).batch
        (started_wrapper w2).batch pts (started_wrapper w1).seq_ids
        (started_wrapper w2).seq_ids (started_wrapper w1).n_past
        (started_wrapper w2).n_past true hnp
      by_cases hpr2 : (process_tokens_in_batches e.decodeOk
          (started_wrapper w2).batch pts (started_wrapper w2).seq_ids
          (started_wrapper w2).n_past true).1 = (pts.length : Int)
      · have hpr1 : (process_tokens_in_batches e.decodeOk
            (started_wrapper w1).batch pts (started_wrapper w1).seq_ids
            (started_wrapper w1).n_past true).1 = (pts.length : Int) := by
          rw [hpc, hpr2]
        rw [ingest_and_generate_ok e (started_wrapper w1) pts hpr1,
            ingest_and_generate_ok e (started_wrapper w2) pts hpr2]
        have hST : convEq
            (prompt_decoded_wrapper (started_wrapper w1) pts
              (process_tokens_in_batches e.decodeOk (started_wrapper w1).batch
                pts (started_wrapper w1).seq_ids (started_wrapper w1).n_past
                true).2.1
              (process_tokens_in_batches e.decodeOk (started_wrapper w1).batch
                pts (started_wrapper w1).seq_ids (started_wrapper w1).n_past
                true).2.2)
            (prompt_decoded_wrapper (started_wrapper w2) pts
              (process_tokens_in_batches e.decodeOk (started_wrapper w2).batch
                pts (started_wrapper w2).seq_ids (started_wrapper w2).n_past
                true).2.1
              (process_tokens_in_batches e.decodeOk (started_wrapper w2).batch
                pts (started_wrapper w2).seq_ids (started_wrapper w2).n_past
                true).2.2) := by
          obtain ⟨h1, h2, h3, h4, h5⟩ := hw1
          refine ⟨?_, ?_, h3, h4, ?_⟩
          · show (started_wrapper w1).conversation_tokens ++ pts =
              (started_wrapper w2).conversation_tokens ++ pts
            rw [h1]
          · show (started_wrapper w1).n_past + pts.length =
              (started_wrapper w2).n_past + pts.length
            rw [h2]
          · show (started_wrapper w1).kv ++ _ = (started_wrapper w2).kv ++ _
            rw [h5, hpv]
        obtain ⟨hl2, hlr, hlc, hlw⟩ := genLoop_congr e 20 0
          ⟨prompt_decoded_wrapper (started_wrapper w1) pts
            (process_tokens_in_batches e.decodeOk (started_wrapper w1).batch
              pts (started_wrapper w1).seq_ids (started_wrapper w1).n_past
              true).2.1
            (process_tokens_in_batches e.decodeOk (started_wrapper w1).batch
              pts (started_wrapper w1).seq_ids (started_wrapper w1).n_past
              true).2.2, [], [], 0⟩
          ⟨prompt_decoded_wrapper (started_wrapper w2) pts
            (process_tokens_in_batches e.decodeOk (started_wrapper w2).batch
              pts (started_wrapper w2).seq_ids (started_wrapper w2).n_past
              true).2.1
            (process_tokens_in_batches e.decodeOk (started_wrapper w2).batch
              pts (started_wrapper w2).seq_ids (started_wrapper w2).n_past
              true).2.2, [], [], 0⟩
          hST rfl rfl rfl
        exact ⟨hlr, hlc, by show PredictStatus.stopped _ =
          PredictStatus.stopped _; rw [hl2]⟩
      · have hpr1 : ¬ (process_tokens_in_batches e.decodeOk
            (started_wrapper w1).batch pts (started_wrapper w1).seq_ids
            (started_wrapper w1).n_past true).1 = (pts.length : Int) := by
          rw [hpc]; exact hpr2
        rw [ingest_and_generate_fail e (started_wrapper w1) pts hpr1,
            ingest_and_generate_fail e (started_wrapper w2) pts hpr2]
        exact ⟨rfl, rfl, rfl⟩

/-- C7: reset_conversation on a live handle yields exactly the state of a
freshly created handle with the same reusable buffers (fresh_wrapper, which
is also what a fully successful load returns up to its own initial
buffers); reset on a null handle is a no-op; and predict observables (text,
generated count, status) do not depend on the reused buffer contents, so
the next predict call behaves as on a freshly created handle. -/
theorem reset_refines_fresh :
    (∀ w : Wrapper, reset_conversation (some w) =
      some (fresh_wrapper w.batch w.seq_ids)) ∧
    reset_conversation none = none ∧
    (∀ w : Wrapper, (fresh_wrapper w.batch w.seq_ids).batch = w.batch ∧
      (fresh_wrapper w.batch w.seq_ids).seq_ids = w.seq_ids ∧
      (fresh_wrapper w.batch w.seq_ids).conversation_tokens = [] ∧
      (fresh_wrapper w.batch w.seq_ids).n_past = 0 ∧
      (fresh_wrapper w.batch w.seq_ids).conversation_started = false ∧
      (fresh_wrapper w.batch w.seq_ids).sampler_accepted = [] ∧
      (fresh_wrapper w.batch w.seq_ids).kv = []) ∧
    (load_model_with_gpu ⟨true, true, true, true⟩).1 =
      some (fresh_wrapper init_batch (List.replicate 512 0)) ∧
    (∀ (b1 b2 : LlamaBatch) (s1 s2 : List Nat) (e : Engine) (p : List Char),
      (predict (some (fresh_wrapper b1 s1)) e p).text =
        (predict (some (fresh_wrapper b2 s2)) e p).text ∧
      (predict (some (fresh_wrapper b1 s1)) e p).genCount =
        (predict (some (fresh_wrapper b2 s2)) e p).genCount ∧
      (predict (some (fresh_wrapper b1 s1)) e p).status =
        (predict (some (fresh_wrapper b2 s2)) e p).status) := by
  refine ⟨fun w => rfl, rfl, fun w => ⟨rfl, rfl, rfl, rfl, rfl, rfl, rfl⟩,
    rfl, fun b1 b2 s1 s2 e p => ?_⟩
  exact predict_congr (fresh_wrapper b1 s1) (fresh_wrapper b2 s2) e p
    ⟨rfl, rfl, rfl, rfl, rfl⟩

end NativeLib
